import Mathlib

/-!
# Node disruption policies of karpenter-core

A shallow embedding of the three node sub-reconcilers

* `pkg/controllers/node/emptiness.go`  (`Emptiness.Reconcile`, `Emptiness.isEmpty`)
* `pkg/controllers/node/expiration.go` (`Expiration.Reconcile`)
* `pkg/controllers/node/drift.go`      (`Drift.Reconcile`)

together with the properties their specification states about them.

Conventions of the embedding:

* a `time.Time` is an integer number of nanoseconds since the Unix epoch;
* a `time.Duration` is an `int64` number of nanoseconds: products wrap modulo `2^64`
  and `Time.Sub` saturates, as in Go;
* a Go `map[string]string` is `none` (the nil map) or `some l` with `l` an association list;
* collaborators (API client, clock, cluster state, cloud provider, the RFC3339 routines of the
  Go standard library) are records of functions, so every theorem holds for all their behaviours;
* a reconciler returns `none` when it panics and otherwise `some o`, where `o` records the
  returned `reconcile.Result`, the returned error, the node as mutated in place and the
  calls made to the collaborators.
-/

namespace Karpenter

/-! ## Time -/

/-! A `time.Time` is held as an `Int`, the nanoseconds since the Unix epoch, and a `time.Duration`
as an `Int`, a signed 64-bit count of nanoseconds. -/

/-- The smallest `time.Duration`. -/
def minDuration : Int := -9223372036854775808

/-- The largest `time.Duration`. -/
def maxDuration : Int := 9223372036854775807

/-- Two's-complement reduction of an integer to the `int64` range. -/
def wrapInt64 (x : Int) : Int := (x + 9223372036854775808) % 18446744073709551616 - 9223372036854775808

/-- The constant `time.Second`. -/
def Second : Int := 1000000000

/-- The Go expression `time.Duration(s) * time.Second` for an `int64` value `s`. -/
def Duration.ofSeconds (s : Int) : Int := wrapInt64 (s * Second)

/-- The method `Time.Add`. -/
def Time.Add (t : Int) (d : Int) : Int := t + d

/-- The method `Time.After`: `t.After(u)` reports whether `t` is strictly later than `u`. -/
def Time.After (t u : Int) : Bool := decide (u < t)

/-- The method `Time.Sub`: the difference `t - u`, clamped to the range of a `Duration`. -/
def Time.Sub (t u : Int) : Int :=
  if t - u < minDuration then minDuration
  else if maxDuration < t - u then maxDuration
  else t - u

/-- The function `time.Until`, given the reading `systemNow` of the system clock it takes. -/
def Time.Until (systemNow : Int) (t : Int) : Int := Time.Sub t systemNow

/-- The instant `t` with its sub-second part dropped. -/
def Time.truncSecond (t : Int) : Int := t - t % Second

/-- The two routines of Go's `time` package that deal with the layout `time.RFC3339`. -/
structure RFC3339 where
  /-- The call `t.Format(time.RFC3339)`. -/
  Format : Int → String
  /-- The call `time.Parse(time.RFC3339, s)`; `none` stands for a parse error. -/
  Parse : String → Option Int

/-! ## A concrete instance of the RFC3339 routines, in UTC -/

/-- The civil date (year, month, day) of the day that lies `z` days after 1970-01-01. -/
def utc.civilFromDays (z : Int) : Int × Int × Int :=
  let z := z + 719468
  let era := z / 146097
  let doe := z % 146097
  let yoe := (doe - doe / 1460 + doe / 36524 - doe / 146096) / 365
  let doy := doe - (365 * yoe + yoe / 4 - yoe / 100)
  let mp := (5 * doy + 2) / 153
  let d := doy - (153 * mp + 2) / 5 + 1
  let m := if mp < 10 then mp + 3 else mp - 9
  let y := yoe + era * 400
  (if m ≤ 2 then y + 1 else y, m, d)

/-- The number of days from 1970-01-01 to the civil date `y`-`m`-`d`. -/
def utc.daysFromCivil (y m d : Int) : Int :=
  let y := if m ≤ 2 then y - 1 else y
  let era := y / 400
  let yoe := y - era * 400
  let doy := (153 * (if m > 2 then m - 3 else m + 9) + 2) / 5 + d - 1
  let doe := yoe * 365 + yoe / 4 - yoe / 100 + doy
  era * 146097 + doe - 719468

/-- The decimal digits of `n`, padded with zeros on the left to at least `w` characters. -/
def utc.pad (w : Nat) (n : Int) : List Char :=
  let ds := Nat.toDigits 10 n.toNat
  List.replicate (w - ds.length) '0' ++ ds

/-- The UTC rendering of `t` in the layout `2006-01-02T15:04:05Z07:00`. -/
def utc.Format (t : Int) : String :=
  let sec := t / 1000000000
  let (y, m, d) := utc.civilFromDays (sec / 86400)
  let s := sec % 86400
  String.mk (utc.pad 4 y ++ '-' :: utc.pad 2 m ++ '-' :: utc.pad 2 d ++ 'T' :: utc.pad 2 (s / 3600)
    ++ ':' :: utc.pad 2 (s % 3600 / 60) ++ ':' :: utc.pad 2 (s % 60) ++ ['Z'])

/-- Reads exactly `k` decimal digits off the front of `cs`, continuing the number `acc`. -/
def utc.digits : Nat → Int → List Char → Option (Int × List Char)
  | 0, acc, cs => some (acc, cs)
  | k + 1, acc, c :: cs =>
    if c.isDigit then utc.digits k (acc * 10 + ((c.toNat - 48 : Nat) : Int)) cs else none
  | _ + 1, _, [] => none

/-- Reads the character `c` off the front of `cs`. -/
def utc.expect (c : Char) : List Char → Option (List Char)
  | d :: cs => if d = c then some cs else none
  | [] => none

/-- The helper `getnum` of Go's `time` package: it reads a number of two digits, or of one digit
when only one is there and the field is not `fixed`. -/
def utc.getnum (fixed : Bool) : List Char → Option (Int × List Char)
  | [] => none
  | [c] =>
    if c.isDigit ∧ fixed = false then some (((c.toNat - 48 : Nat) : Int), []) else none
  | c :: d :: cs =>
    if c.isDigit then
      if d.isDigit then
        some (((c.toNat - 48 : Nat) : Int) * 10 + ((d.toNat - 48 : Nat) : Int), cs)
      else if fixed then none
      else some (((c.toNat - 48 : Nat) : Int), d :: cs)
    else none

/-- Reads the fraction of a second that `time.Parse` admits after the seconds although the layout
has none: a period or a comma followed by digits, of which the first nine count, in nanoseconds.
Without such a fraction nothing is read. -/
def utc.fraction : List Char → Option (Int × List Char)
  | sep :: c :: cs =>
    if (sep = '.' ∨ sep = ',') ∧ c.isDigit then
      let ds := ((c :: cs).takeWhile Char.isDigit).take 9
      let rest := (c :: cs).dropWhile Char.isDigit
      (utc.digits 9 0 (ds ++ List.replicate (9 - ds.length) '0')).map (fun r => (r.1, rest))
    else some (0, sep :: c :: cs)
  | cs => some (0, cs)

/-- Reads the zone designator as `time.Parse` does for `Z07:00`: a `Z`, or a sign, two digits, a
colon and two digits, with hours up to 24 and minutes up to 60, and nothing after it; the result
is the offset from UTC in seconds. -/
def utc.zone : List Char → Option Int
  | 'Z' :: rest => if rest = [] then some 0 else none
  | sign :: h1 :: h2 :: colon :: m1 :: m2 :: rest =>
    if colon = ':' ∧ rest = [] then do
      let (h, _) ← utc.getnum true [h1, h2]
      let (m, _) ← utc.getnum true [m1, m2]
      if h ≤ 24 ∧ m ≤ 60 ∧ (sign = '+' ∨ sign = '-') then
        some ((if sign = '-' then -1 else 1) * ((h * 60 + m) * 60))
      else none
    else none
  | _ => none

/-- The number of days of month `m` in year `y`. -/
def utc.daysIn (y m : Int) : Int :=
  if m = 2 then (if y % 4 = 0 ∧ (y % 100 ≠ 0 ∨ y % 400 = 0) then 29 else 28)
  else if m = 4 ∨ m = 6 ∨ m = 9 ∨ m = 11 then 30 else 31

/-- The instant that `time.Parse` reads from `s` for the layout `2006-01-02T15:04:05Z07:00`, or
`none` where it reports an error. As in Go the year has four digits, month, day, minute and second
two, the hour one or two, and a fraction of a second may follow the seconds. -/
def utc.Parse (s : String) : Option Int := do
  let (y, cs) ← utc.digits 4 0 s.toList
  let cs ← utc.expect '-' cs
  let (m, cs) ← utc.getnum true cs
  let cs ← utc.expect '-' cs
  let (d, cs) ← utc.getnum true cs
  let cs ← utc.expect 'T' cs
  let (h, cs) ← utc.getnum false cs
  let cs ← utc.expect ':' cs
  let (mi, cs) ← utc.getnum true cs
  let cs ← utc.expect ':' cs
  let (sec, cs) ← utc.getnum true cs
  let (ns, cs) ← utc.fraction cs
  let off ← utc.zone cs
  if 1 ≤ m ∧ m ≤ 12 ∧ 1 ≤ d ∧ d ≤ utc.daysIn y m ∧ h < 24 ∧ mi < 60 ∧ sec < 60 then
    some (((utc.daysFromCivil y m d * 86400 + h * 3600 + mi * 60 + sec) - off) * 1000000000 + ns)
  else none

/-- Reads the fraction of a second that RFC 3339 allows: a period followed by one or more
digits, or nothing. -/
def rfc3339.secfrac : List Char → Option (List Char)
  | '.' :: c :: cs => if c.isDigit then some ((c :: cs).dropWhile Char.isDigit) else none
  | cs => some cs

/-- Reads the time offset that RFC 3339 allows: `Z` or `z`, or a sign, a two-digit hour up to 23,
a colon and a two-digit minute up to 59; nothing may follow. -/
def rfc3339.offset : List Char → Bool
  | [c] => decide (c = 'Z' ∨ c = 'z')
  | [sign, h1, h2, colon, m1, m2] =>
    match utc.digits 2 0 [h1, h2], utc.digits 2 0 [m1, m2] with
    | some (h, _), some (m, _) =>
      decide ((sign = '+' ∨ sign = '-') ∧ colon = ':' ∧ h ≤ 23 ∧ m ≤ 59)
    | _, _ => false
  | _ => false

/-- Whether `s` is a `date-time` of RFC 3339, section 5.6: a four-digit year, two-digit month and
day, `T` or `t`, two-digit hour, minute and second, an optional fraction written with a period,
and a time offset, every field within its range. -/
def rfc3339.isValid (s : String) : Bool :=
  match (do
    let (y, cs) ← utc.digits 4 0 s.toList
    let cs ← utc.expect '-' cs
    let (m, cs) ← utc.digits 2 0 cs
    let cs ← utc.expect '-' cs
    let (d, cs) ← utc.digits 2 0 cs
    let cs ← (utc.expect 'T' cs).orElse (fun _ => utc.expect 't' cs)
    let (h, cs) ← utc.digits 2 0 cs
    let cs ← utc.expect ':' cs
    let (mi, cs) ← utc.digits 2 0 cs
    let cs ← utc.expect ':' cs
    let (sec, cs) ← utc.digits 2 0 cs
    let cs ← rfc3339.secfrac cs
    pure (decide (1 ≤ m ∧ m ≤ 12 ∧ 1 ≤ d ∧ d ≤ utc.daysIn y m ∧ h ≤ 23 ∧ mi ≤ 59 ∧ sec ≤ 60)
      && rfc3339.offset cs) : Option Bool) with
  | some b => b
  | none => false

/-- The RFC3339 routines for a clock whose location is UTC. -/
def rfc3339UTC : RFC3339 := ⟨utc.Format, utc.Parse⟩

/-! ## Maps -/

/-- A Go `map[string]string`; `none` is the nil map. -/
abbrev StringMap := Option (List (String × String))

/-- The two-valued index expression `v, ok := m[k]`. -/
def StringMap.lookup (m : StringMap) (k : String) : Option String :=
  match m with
  | none => none
  | some l => List.lookup k l

/-- The index expression `m[k]`, which yields the zero value `""` for a missing key. -/
def StringMap.get (m : StringMap) (k : String) : String := (StringMap.lookup m k).getD ""

/-- The builtin `delete(m, k)`; a no-op on the nil map. -/
def StringMap.delete (m : StringMap) (k : String) : StringMap :=
  match m with
  | none => none
  | some l => some (l.filter (fun e => !(e.1 == k)))

/-- The assignment `m[k] = v`; it panics (`none`) on the nil map. -/
def StringMap.set (m : StringMap) (k v : String) : Option StringMap :=
  match m with
  | none => none
  | some l => some (some ((k, v) :: l.filter (fun e => !(e.1 == k))))

/-- The call `lo.Assign(m)` with a single argument: a fresh non-nil map with the entries of `m`. -/
def lo.Assign (m : StringMap) : StringMap := some (m.getD [])

/-! ## Objects -/

/-- Modelled from the spec: the constant `v1alpha5.LabelNodeInitialized` is declared outside the
sources at hand; the spec calls the label `initialized`. -/
def LabelNodeInitialized : String := "initialized"

/-- Modelled from the spec: the constant `v1alpha5.EmptinessTimestampAnnotationKey` is declared
outside the sources at hand; the spec calls the annotation `emptiness-timestamp`. -/
def EmptinessTimestampAnnotationKey : String := "emptiness-timestamp"

/-- Modelled from the spec: the constant `v1alpha5.AmiAnnotationKey` is declared outside the
sources at hand; the spec calls the annotation `ami-id`. -/
def AmiAnnotationKey : String := "ami-id"

/-- Modelled from the spec: the constant `v1alpha5.DriftedAnnotationKey` is declared outside the
sources at hand; the spec calls the annotation `drifted`. -/
def DriftedAnnotationKey : String := "drifted"

/-- Modelled from the spec: the constant `metrics.EmptinessReason` is declared outside the
sources at hand; the spec gives the label value `emptiness`. -/
def EmptinessReason : String := "emptiness"

/-- Modelled from the spec: the constant `metrics.ExpirationReason` is declared outside the
sources at hand; the spec gives the label value `expiration`. -/
def ExpirationReason : String := "expiration"

/-- The fields of a `v1.Node` that the reconcilers read or write. -/
structure Node where
  Name : String
  UID : String
  CreationTimestamp : Int
  Labels : StringMap
  Annotations : StringMap
  deriving DecidableEq, Repr

/-- The fields of `v1alpha5.ProvisionerSpec` that the reconcilers read; `none` is a nil pointer. -/
structure ProvisionerSpec where
  TTLSecondsAfterEmpty : Option Int
  TTLSecondsUntilExpired : Option Int
  deriving DecidableEq, Repr

/-- A `v1alpha5.Provisioner`. -/
structure Provisioner where
  Spec : ProvisionerSpec
  deriving DecidableEq, Repr

/-- The ownership classification of a pod. -/
inductive Ownership where
  | daemonSet
  | node
  | regular
  deriving DecidableEq, Repr

/-- Modelled from the spec: the pod helpers of `pkg/utils/pod` are outside the sources at hand.
The spec gives a pod a node assignment, a terminal or non-terminal phase and an ownership
classification (daemon-managed, node-owned, or regular). -/
structure Pod where
  NodeName : String
  Terminal : Bool
  Owner : Ownership
  deriving DecidableEq, Repr

/-- Modelled from the spec: `pod.IsTerminal` of `pkg/utils/pod`, the pod is in a terminal phase. -/
def pod.IsTerminal (p : Pod) : Bool := p.Terminal

/-- Modelled from the spec: `pod.IsOwnedByDaemonSet` of `pkg/utils/pod`, the pod is owned by a
daemon-style controller. -/
def pod.IsOwnedByDaemonSet (p : Pod) : Bool := decide (p.Owner = Ownership.daemonSet)

/-- Modelled from the spec: `pod.IsOwnedByNode` of `pkg/utils/pod`, the pod is owned by the node
itself (a static pod). -/
def pod.IsOwnedByNode (p : Pod) : Bool := decide (p.Owner = Ownership.node)

/-- A `reconcile.Result`. -/
structure Result where
  Requeue : Bool := false
  RequeueAfter : Int := 0
  deriving DecidableEq, Repr

/-! ## Collaborators -/

/-- The calls made on the `client.Client`. -/
structure Client where
  /-- The call `List(ctx, pods, client.MatchingFields["spec.nodeName": name])`: the pods listed,
  or an error. -/
  List : String → Except String (List Pod)
  /-- The call `Delete(ctx, node)`: `none` for success, `some e` for the error `e`. -/
  Delete : Node → Option String

/-- The injected `clock.Clock`: `Now k` is what the `k`-th call of `Now()` within a pass returns. -/
structure Clock where
  Now : Nat → Int

/-- A clock that reads `t` at every call, as a fake clock does during one pass. -/
def Clock.fixed (t : Int) : Clock := ⟨fun _ => t⟩

/-- The part of `state.Cluster` that the reconcilers consult. -/
structure Cluster where
  IsNodeNominated : String → Bool

/-- The part of `cloudprovider.CloudProvider` that the reconcilers consult. -/
structure CloudProvider where
  IsNodeDrifted : Node → Provisioner → Bool

/-- What one call of a reconciler did: the values it returned, the node as it left it, and the
calls it made. -/
structure Outcome where
  /-- The returned `reconcile.Result`. -/
  result : Result
  /-- The returned error; `none` is `nil`. -/
  err : Option String
  /-- The node after the call (the reconcilers mutate it in place). -/
  node : Node
  /-- The nodes passed to `kubeClient.Delete`, in order. -/
  deleteRequests : List Node := []
  /-- The reasons for which `metrics.NodesTerminatedCounter` was incremented, in order. -/
  terminated : List String := []
  /-- The number of calls of `cloudProvider.IsNodeDrifted`. -/
  driftChecks : Nat := 0
  deriving DecidableEq, Repr

/-! ## Emptiness -/

/-- The struct `Emptiness`. -/
structure Emptiness where
  kubeClient : Client
  clock : Clock
  cluster : Cluster

/-- The loop of `Emptiness.isEmpty` over `pods.Items`. -/
def Emptiness.isEmpty.loop : List Pod → Bool
  | [] => true
  | p :: rest =>
    if !pod.IsTerminal p && !pod.IsOwnedByDaemonSet p && !pod.IsOwnedByNode p then false
    else Emptiness.isEmpty.loop rest

/-- The method `Emptiness.isEmpty`: the pair of its two return values. -/
def Emptiness.isEmpty (r : Emptiness) (n : Node) : Bool × Option String :=
  match r.kubeClient.List n.Name with
  | Except.error err => (false, some ("listing pods for node, " ++ err))
  | Except.ok pods => (Emptiness.isEmpty.loop pods, none)

/-- The method `Emptiness.Reconcile`. -/
def Emptiness.Reconcile (r : Emptiness) (rfc : RFC3339) (provisioner : Provisioner) (n : Node) :
    Option Outcome :=
  -- 1. Ignore node if not applicable
  match provisioner.Spec.TTLSecondsAfterEmpty with
  | none => some { result := {}, err := none, node := n }
  | some ttlSeconds =>
  if StringMap.get n.Labels LabelNodeInitialized ≠ "true" then
    some { result := {}, err := none, node := n }
  else
  -- 2. Remove ttl if not empty
  match Emptiness.isEmpty r n with
  | (_, some err) => some { result := {}, err := some err, node := n }
  | (empty, none) =>
  if r.cluster.IsNodeNominated n.Name then
    some { result := {}, err := none, node := n }
  else
  let emptinessTimestamp := StringMap.get n.Annotations EmptinessTimestampAnnotationKey
  let hasEmptinessTimestamp := (StringMap.lookup n.Annotations EmptinessTimestampAnnotationKey).isSome
  if !empty then
    if hasEmptinessTimestamp then
      some { result := {}, err := none,
             node := { n with Annotations := StringMap.delete n.Annotations EmptinessTimestampAnnotationKey } }
    else
      some { result := {}, err := none, node := n }
  else
  -- 3. Set TTL if not set
  let n1 : Node := { n with Annotations := lo.Assign n.Annotations }
  let ttl := Duration.ofSeconds ttlSeconds
  if !hasEmptinessTimestamp then
    match StringMap.set n1.Annotations EmptinessTimestampAnnotationKey (rfc.Format (r.clock.Now 0)) with
    | none => none
    | some annotations =>
      some { result := { RequeueAfter := ttl }, err := none, node := { n1 with Annotations := annotations } }
  else
  -- 4. Delete node if beyond TTL
  match rfc.Parse emptinessTimestamp with
  | none =>
    some { result := {}, err := some ("parsing emptiness timestamp, " ++ emptinessTimestamp), node := n1 }
  | some emptinessTime =>
  if Time.After (r.clock.Now 0) (Time.Add emptinessTime ttl) then
    match r.kubeClient.Delete n1 with
    | some err =>
      some { result := {}, err := some ("deleting node, " ++ err), node := n1, deleteRequests := [n1] }
    | none =>
      some { result := { RequeueAfter := Time.Sub (Time.Add emptinessTime ttl) (r.clock.Now 1) },
             err := none, node := n1, deleteRequests := [n1], terminated := [EmptinessReason] }
  else
    some { result := { RequeueAfter := Time.Sub (Time.Add emptinessTime ttl) (r.clock.Now 1) },
           err := none, node := n1 }

/-! ## Expiration -/

/-- The struct `Expiration`. -/
structure Expiration where
  kubeClient : Client
  clock : Clock

/-- The method `Expiration.Reconcile`. Besides the injected clock it reads the system clock, through
`time.Until`; `systemNow` is that reading. -/
def Expiration.Reconcile (r : Expiration) (systemNow : Int) (provisioner : Provisioner) (node : Node) :
    Option Outcome :=
  -- 1. Ignore node if not applicable
  match provisioner.Spec.TTLSecondsUntilExpired with
  | none => some { result := {}, err := none, node := node }
  | some ttlSeconds =>
  -- 2. Trigger termination workflow if expired
  let expirationTTL := Duration.ofSeconds ttlSeconds
  let expirationTime := Time.Add node.CreationTimestamp expirationTTL
  if Time.After (r.clock.Now 0) expirationTime then
    match r.kubeClient.Delete node with
    | some err =>
      some { result := {}, err := some ("deleting node, " ++ err), node := node, deleteRequests := [node] }
    | none =>
      -- 3. Backoff until expired
      some { result := { RequeueAfter := Time.Until systemNow expirationTime }, err := none, node := node,
             deleteRequests := [node], terminated := [ExpirationReason] }
  else
    some { result := { RequeueAfter := Time.Until systemNow expirationTime }, err := none, node := node }

/-! ## Drift -/

/-- The struct `Drift`. -/
structure Drift where
  kubeClient : Client
  clock : Clock
  cluster : Cluster
  cloudProvider : CloudProvider

/-- The method `Drift.Reconcile`. -/
def Drift.Reconcile (r : Drift) (provisioner : Provisioner) (n : Node) : Option Outcome :=
  if StringMap.get n.Annotations AmiAnnotationKey = "" then
    some { result := {}, err := none, node := n }
  else
  let isDrifted := r.cloudProvider.IsNodeDrifted n provisioner
  if isDrifted then
    match StringMap.set n.Annotations DriftedAnnotationKey "true" with
    | none => none
    | some annotations =>
      some { result := {}, err := none, node := { n with Annotations := annotations }, driftChecks := 1 }
  else
    some { result := {}, err := none, node := n, driftChecks := 1 }

/-! ## A reconciliation pass over the three policies -/

/-- The three node policies. -/
inductive Policy where
  | emptiness
  | expiration
  | drift
  deriving DecidableEq, Repr

/-- Modelled from the spec: the controller that invokes the policies is outside the sources at
hand. The spec has each policy invoked once per reconciliation pass on the same node and
provisioner; this record holds the three sub-reconcilers, the RFC3339 routines and the reading of
the system clock that the pass works with. -/
structure Controller where
  emptiness : Emptiness
  expiration : Expiration
  drift : Drift
  rfc : RFC3339
  systemNow : Int

/-- The call of one policy on a node. -/
def Controller.reconcileWith (c : Controller) (provisioner : Provisioner) (p : Policy) (n : Node) :
    Option Outcome :=
  match p with
  | Policy.emptiness => Emptiness.Reconcile c.emptiness c.rfc provisioner n
  | Policy.expiration => Expiration.Reconcile c.expiration c.systemNow provisioner n
  | Policy.drift => Drift.Reconcile c.drift provisioner n

/-- What a pass leaves behind: the node after the last policy, the policies whose call requested a
deletion, and the increments of the termination counter, both in order of invocation. -/
structure PassResult where
  node : Node
  deleters : List Policy
  terminated : List String
  deriving DecidableEq, Repr

/-- Modelled from the spec: one reconciliation pass, which invokes the given policies one after
the other on the node, each policy working on the node as the previous one left it; `none` when a
policy panics. -/
def Controller.runPass (c : Controller) (provisioner : Provisioner) :
    List Policy → Node → Option PassResult
  | [], n => some ⟨n, [], []⟩
  | p :: rest, n =>
    match Controller.reconcileWith c provisioner p n with
    | none => none
    | some out =>
      match Controller.runPass c provisioner rest out.node with
      | none => none
      | some r =>
        some ⟨r.node, (if out.deleteRequests = [] then [] else [p]) ++ r.deleters,
          out.terminated ++ r.terminated⟩

/-- External observations that stay fixed during a pass, every call succeeding: the clock time,
the pods listed for the node, the nomination answer and the drift answer of the backend. -/
structure Observations where
  now : Int
  pods : List Pod
  nominated : Bool
  drifted : Bool

/-- The controller whose collaborators answer as the fixed observations say. -/
def Controller.ofObservations (obs : Observations) (rfc : RFC3339) : Controller :=
  let client : Client := ⟨fun _ => Except.ok obs.pods, fun _ => none⟩
  let clock : Clock := Clock.fixed obs.now
  let cluster : Cluster := ⟨fun _ => obs.nominated⟩
  { emptiness := ⟨client, clock, cluster⟩,
    expiration := ⟨client, clock⟩,
    drift := ⟨client, clock, cluster, ⟨fun _ _ => obs.drifted⟩⟩,
    rfc := rfc,
    systemNow := obs.now }

/-- Two maps hold the same entries: both are nil or both are not, and every key has the same
value, or none, in both. -/
def StringMap.Equiv (a b : StringMap) : Prop :=
  a.isSome = b.isSome ∧ ∀ k, StringMap.lookup a k = StringMap.lookup b k

/-- Two nodes are the same object up to the order in which their annotation map is stored. -/
def Node.Equiv (m n : Node) : Prop :=
  m.Name = n.Name ∧ m.UID = n.UID ∧ m.CreationTimestamp = n.CreationTimestamp ∧
    m.Labels = n.Labels ∧ StringMap.Equiv m.Annotations n.Annotations

/-- Two pass results agree: the final nodes are the same object, the same policies requested a
deletion and the termination counter received the same increments, whatever the order. -/
def PassResult.Equiv (r s : PassResult) : Prop :=
  Node.Equiv r.node s.node ∧ r.deleters.Perm s.deleters ∧ r.terminated.Perm s.terminated

/-- Two policies commute on a node: invoked in either order they leave the same node behind, and
each of them takes the same decisions (deletion request, counter increments) in both orders. -/
def Controller.Commute (c : Controller) (provisioner : Provisioner) (p q : Policy) (n : Node) :
    Prop :=
  ∃ o1 o2 o3 o4,
    Controller.reconcileWith c provisioner p n = some o1 ∧
    Controller.reconcileWith c provisioner q o1.node = some o2 ∧
    Controller.reconcileWith c provisioner q n = some o3 ∧
    Controller.reconcileWith c provisioner p o3.node = some o4 ∧
    Node.Equiv o2.node o4.node ∧
    (o1.deleteRequests = [] ↔ o4.deleteRequests = []) ∧ o1.terminated = o4.terminated ∧
    (o2.deleteRequests = [] ↔ o3.deleteRequests = []) ∧ o2.terminated = o3.terminated

/-! ## The deprovisioning reporter -/

/-- The constant `time.Minute`. -/
def Minute : Int := 60 * Second

/-- Modelled from the spec: an event as the recorder takes it, a structured notification of a node
and a reason text (the packages `events` and `deprovisioning/events` are outside the sources at
hand). -/
structure Event where
  node : Node
  reason : String
  deriving DecidableEq, Repr

/-- Modelled from the spec: the constructor `deprovisioningevents.UnconsolidatableReason`. -/
def deprovisioningevents.UnconsolidatableReason (node : Node) (reason : String) : Event :=
  ⟨node, reason⟩

/-- Modelled from the spec: the `events.Recorder`, an event sink; the record keeps the events
published so far, oldest first. -/
structure Recorder where
  published : List Event
  deriving DecidableEq, Repr

/-- The method `Publish` of the recorder. -/
def Recorder.Publish (r : Recorder) (e : Event) : Recorder := ⟨r.published ++ [e]⟩

/-- Modelled from the spec: the `pretty.ChangeMonitor` is outside the sources at hand. The spec
describes it as a per-key rate limiter with a configurable minimum interval whose entries, keyed
by node identity and topic, hold the time of the last emission. -/
structure ChangeMonitor where
  interval : Int
  lastEmitted : List ((String × String) × Int)
  deriving DecidableEq, Repr

/-- Modelled from the spec: `pretty.NewChangeMonitor`, a monitor without entries. The spec does
not give the interval of a monitor that was never reconfigured, so it is a parameter. -/
def pretty.NewChangeMonitor (defaultInterval : Int) : ChangeMonitor := ⟨defaultInterval, []⟩

/-- Modelled from the spec: `ChangeMonitor.Reconfigure`, which sets the minimum interval. -/
def ChangeMonitor.Reconfigure (cm : ChangeMonitor) (interval : Int) : ChangeMonitor :=
  { cm with interval := interval }

/-- Modelled from the spec: `ChangeMonitor.HasChanged` called at the instant `now`. It returns
true, and records `now` for the key, the first time it is called for the key and whenever the
interval has elapsed since the last call that returned true for the key; otherwise it returns
false and changes nothing. -/
def ChangeMonitor.HasChanged (cm : ChangeMonitor) (now : Int) (key topic : String) :
    Bool × ChangeMonitor :=
  match List.lookup (key, topic) cm.lastEmitted with
  | none => (true, { cm with lastEmitted := ((key, topic), now) :: cm.lastEmitted })
  | some last =>
    if cm.interval ≤ now - last then
      (true, { cm with lastEmitted := ((key, topic), now) :: cm.lastEmitted })
    else (false, cm)

/-- The struct `Reporter`. -/
structure Reporter where
  cm : ChangeMonitor
  recorder : Recorder
  deriving DecidableEq, Repr

/-- The function `NewReporter`; `defaultInterval` is the interval of a fresh change monitor. -/
def NewReporter (recorder : Recorder) (defaultInterval : Int) : Reporter :=
  let cm := pretty.NewChangeMonitor defaultInterval
  let cm := ChangeMonitor.Reconfigure cm (15 * Minute)
  { recorder := recorder, cm := cm }

/-- The method `Reporter.RecordUnconsolidatableReason`, called at the instant `now`: the reporter
afterwards. -/
def Reporter.RecordUnconsolidatableReason (r : Reporter) (now : Int) (node : Node)
    (reason : String) : Reporter :=
  match ChangeMonitor.HasChanged r.cm now node.UID "consolidation" with
  | (true, cm) =>
    { cm := cm,
      recorder := Recorder.Publish r.recorder (deprovisioningevents.UnconsolidatableReason node reason) }
  | (false, cm) => { cm := cm, recorder := r.recorder }

/-! ## Concrete collaborators and objects -/

/-- The instant 2023-01-01T00:00:00Z. -/
def T0 : Int := 1672531200000000000

/-- A client that lists the given pods for every node and whose deletes succeed. -/
def clientListing (pods : List Pod) : Client := ⟨fun _ => Except.ok pods, fun _ => none⟩

/-- A cluster state in which no node is nominated. -/
def clusterIdle : Cluster := ⟨fun _ => false⟩

/-- A cluster state in which every node is nominated. -/
def clusterNominating : Cluster := ⟨fun _ => true⟩

/-- An initialized node created at `T0` that carries the given annotations. -/
def nodeA (annotations : StringMap) : Node :=
  ⟨"node-a", "uid-a", T0, some [("initialized", "true")], annotations⟩

/-- A provisioner with the given `ttlSecondsAfterEmpty` and `ttlSecondsUntilExpired`. -/
def provisionerWith (afterEmpty untilExpired : Option Int) : Provisioner := ⟨⟨afterEmpty, untilExpired⟩⟩

/-- A pod that keeps a node from being empty. -/
def podRunning : Pod := ⟨"node-a", false, Ownership.regular⟩

/-- An annotation map whose emptiness timestamp is 2023-01-01T00:00:10Z, ten seconds after `T0`. -/
def stampedAt10 : StringMap := some [("emptiness-timestamp", "2023-01-01T00:00:10Z")]

/-- An uninitialized node (it has no labels at all) that carries an emptiness timestamp. -/
def nodeFresh : Node := ⟨"node-b", "uid-b", T0, none, stampedAt10⟩

/-- A cloud provider that reports every node as drifted. -/
def cloudDrifted : CloudProvider := ⟨fun _ _ => true⟩

/-- A client whose pod listing fails. -/
def clientFailingList : Client := ⟨fun _ => Except.error "timeout", fun _ => none⟩

/-- A client that lists no pods and whose deletes fail. -/
def clientFailingDelete : Client := ⟨fun _ => Except.ok [], fun _ => some "conflict"⟩

/-- A cloud provider that reports no node as drifted. -/
def cloudSteady : CloudProvider := ⟨fun _ _ => false⟩

/-- An annotation map with an identity marker and the drift mark. -/
def markedDrifted : StringMap := some [("drifted", "true"), ("ami-id", "ami-1")]

/-- An annotation map with an identity marker only. -/
def identified : StringMap := some [("ami-id", "ami-1")]

/-- An annotation map whose emptiness timestamp is the empty string. -/
def stampedBlank : StringMap := some [("emptiness-timestamp", "")]

/-- An annotation map with an identity marker and an emptiness timestamp ten seconds after `T0`. -/
def identifiedStamped : StringMap :=
  some [("ami-id", "ami-1"), ("emptiness-timestamp", "2023-01-01T00:00:10Z")]

/-- Observations at `T0 + 3700s`: no pods, no nomination, a drifted backend answer. -/
def observedLate : Observations := ⟨T0 + 3700 * Second, [], false, true⟩

/-- An annotation map whose emptiness timestamp has a one-digit hour: not a timestamp of
RFC 3339, yet `time.Parse` reads it as ten seconds after `T0`. -/
def stampedShortHour : StringMap := some [("emptiness-timestamp", "2023-01-01T0:00:10Z")]

/-- An annotation map whose emptiness timestamp has a comma before the fraction: not a timestamp
of RFC 3339, yet `time.Parse` reads it as ten and a half seconds after `T0`. -/
def stampedComma : StringMap := some [("emptiness-timestamp", "2023-01-01T00:00:10,5Z")]

/-- A clock that advances by one second from one call to the next, starting at `t`. -/
def clockTicking (t : Int) : Clock := ⟨fun k => t + (k : Int) * Second⟩

/-! ## Lemmas on maps, durations and the emptiness test -/

theorem StringMap.lookup_delete_self (m : StringMap) (k : String) :
    StringMap.lookup (StringMap.delete m k) k = none := by
  cases m with
  | none => rfl
  | some l =>
    simp only [StringMap.delete, StringMap.lookup]
    induction l with
    | nil => rfl
    | cons e l ih =>
      by_cases h : e.1 = k
      · simp [List.filter, h, ih]
      · have h2 : (k == e.1) = false := by simpa using fun h3 => h h3.symm
        have h3 : (e.1 == k) = false := by simpa using h
        rw [List.filter, h3]
        simp only [Bool.not_false]
        obtain ⟨a, b⟩ := e
        simp only [List.lookup] at *
        simp only [h2, ih]

theorem StringMap.lookup_set_self (m m2 : StringMap) (k v : String)
    (h : StringMap.set m k v = some m2) : StringMap.lookup m2 k = some v := by
  cases m with
  | none => simp [StringMap.set] at h
  | some l =>
    simp only [StringMap.set, Option.some.injEq] at h
    subst h
    simp [StringMap.lookup, List.lookup]

theorem StringMap.eq_some_of_lookup {m : StringMap} {k v : String}
    (h : StringMap.lookup m k = some v) : ∃ l, m = some l := by
  cases m with
  | none => simp [StringMap.lookup] at h
  | some l => exact ⟨l, rfl⟩

theorem StringMap.get_of_lookup {m : StringMap} {k v : String}
    (h : StringMap.lookup m k = some v) : StringMap.get m k = v := by
  simp [StringMap.get, h]

/-- Assigning into the copy that `lo.Assign` makes never panics. -/
theorem StringMap.set_Assign (m : StringMap) (k v : String) :
    StringMap.set (lo.Assign m) k v =
      some (some ((k, v) :: (m.getD []).filter (fun e => !(e.1 == k)))) := rfl

/-- Within the range of a `Duration` the product `time.Duration(s) * time.Second` is exact. -/
theorem Duration.ofSeconds_exact (s : Int) (hlo : minDuration ≤ s * Second)
    (hhi : s * Second ≤ maxDuration) : Duration.ofSeconds s = s * Second := by
  unfold Duration.ofSeconds wrapInt64
  unfold minDuration at hlo
  unfold maxDuration at hhi
  omega

/-- The emptiness test looks at the node's name only, and at no collaborator but the client. -/
theorem Emptiness.isEmpty_of_list (r : Emptiness) (n : Node) (pods : List Pod)
    (h : r.kubeClient.List n.Name = Except.ok pods) :
    Emptiness.isEmpty r n = (Emptiness.isEmpty.loop pods, none) := by
  simp [Emptiness.isEmpty, h]

theorem Emptiness.isEmpty_loop_false (pods : List Pod) (p : Pod) (hp : p ∈ pods)
    (h1 : pod.IsTerminal p = false) (h2 : pod.IsOwnedByDaemonSet p = false)
    (h3 : pod.IsOwnedByNode p = false) : Emptiness.isEmpty.loop pods = false := by
  induction pods with
  | nil => cases hp
  | cons q rest ih =>
    rcases List.mem_cons.mp hp with rfl | hmem
    · simp [Emptiness.isEmpty.loop, h1, h2, h3]
    · simp only [Emptiness.isEmpty.loop, ih hmem]
      split <;> rfl

/-- The outcome of the arming branch: an initialized, non-nominated, empty node without a stamp. -/
theorem Emptiness.Reconcile_arm
    (r : Emptiness) (rfc : RFC3339) (provisioner : Provisioner) (n : Node) (D : Int)
    (hD : provisioner.Spec.TTLSecondsAfterEmpty = some D)
    (hinit : StringMap.get n.Labels LabelNodeInitialized = "true")
    (hnom : r.cluster.IsNodeNominated n.Name = false)
    (hempty : Emptiness.isEmpty r n = (true, none))
    (hann : StringMap.lookup n.Annotations EmptinessTimestampAnnotationKey = none) :
    Emptiness.Reconcile r rfc provisioner n =
      some { result := { RequeueAfter := Duration.ofSeconds D }, err := none,
             node := { n with Annotations := some ((EmptinessTimestampAnnotationKey,
               rfc.Format (r.clock.Now 0)) :: (n.Annotations.getD []).filter
                 (fun e => !(e.1 == EmptinessTimestampAnnotationKey))) } } := by
  unfold Emptiness.Reconcile
  simp only [hD, hinit, hempty, hnom, hann, StringMap.set_Assign]
  simp

/-- The outcome of the countdown branch: an initialized, non-nominated, empty node whose stamp
parses to `T`. -/
theorem Emptiness.Reconcile_countdown
    (r : Emptiness) (rfc : RFC3339) (provisioner : Provisioner) (n : Node) (D : Int) (v : String)
    (T : Int)
    (hD : provisioner.Spec.TTLSecondsAfterEmpty = some D)
    (hinit : StringMap.get n.Labels LabelNodeInitialized = "true")
    (hnom : r.cluster.IsNodeNominated n.Name = false)
    (hempty : Emptiness.isEmpty r n = (true, none))
    (hann : StringMap.lookup n.Annotations EmptinessTimestampAnnotationKey = some v)
    (hT : rfc.Parse v = some T) :
    Emptiness.Reconcile r rfc provisioner n =
      if T + Duration.ofSeconds D < r.clock.Now 0 then
        match r.kubeClient.Delete n with
        | some err =>
          some { result := {}, err := some ("deleting node, " ++ err), node := n, deleteRequests := [n] }
        | none =>
          some { result := { RequeueAfter := Time.Sub (T + Duration.ofSeconds D) (r.clock.Now 1) },
                 err := none, node := n, deleteRequests := [n], terminated := [EmptinessReason] }
      else
        some { result := { RequeueAfter := Time.Sub (T + Duration.ofSeconds D) (r.clock.Now 1) },
               err := none, node := n } := by
  obtain ⟨l, hl⟩ := StringMap.eq_some_of_lookup hann
  have hn1 : ({ n with Annotations := lo.Assign n.Annotations } : Node) = n := by
    cases n; simp_all [lo.Assign]
  have hget := StringMap.get_of_lookup hann
  unfold Emptiness.Reconcile
  simp only [hD, hinit, hempty, hnom, hann, hget, hT, hn1]
  simp [Time.After, Time.Add]

/-- A difference of instants in order is non-negative, and never more than the exact difference. -/
theorem Time.Sub_of_le (t u : Int) (h : u ≤ t) :
    0 ≤ Time.Sub t u ∧ Time.Sub t u ≤ t - u ∧ (t = u → Time.Sub t u = 0) ∧
      (u < t → 0 < Time.Sub t u) := by
  simp only [Time.Sub, minDuration, maxDuration]
  split_ifs <;> omega

/-- A difference of instants out of order is negative. -/
theorem Time.Sub_of_lt (t u : Int) (h : t < u) : Time.Sub t u < 0 := by
  simp only [Time.Sub, minDuration, maxDuration]
  split_ifs <;> omega

/-! ## Emptiness: the countdown -/

/-- C1 (as amended): for an initialized, non-nominated node observed empty whose
emptiness-timestamp annotation parses to `T`, and a TTL of `D` seconds held as the duration
`time.Duration(D) * time.Second`, a pass with the clock fixed at `now` behaves as follows.
Before the deadline `T + D` it requests no deletion and returns a positive requeue of at most the
remaining time; at exactly `T + D` it still requests no deletion and returns requeue zero; at any
time strictly after `T + D` it requests deletion of the node exactly once. -/
theorem emptiness_deletes_strictly_after_ttl
    (kubeClient : Client) (cluster : Cluster) (rfc : RFC3339) (provisioner : Provisioner) (n : Node)
    (D : Int) (v : String) (T now : Int)
    (hD : provisioner.Spec.TTLSecondsAfterEmpty = some D)
    (hinit : StringMap.get n.Labels LabelNodeInitialized = "true")
    (hnom : cluster.IsNodeNominated n.Name = false)
    (hempty : Emptiness.isEmpty ⟨kubeClient, Clock.fixed now, cluster⟩ n = (true, none))
    (hann : StringMap.lookup n.Annotations EmptinessTimestampAnnotationKey = some v)
    (hT : rfc.Parse v = some T) :
    ∃ out, Emptiness.Reconcile ⟨kubeClient, Clock.fixed now, cluster⟩ rfc provisioner n = some out ∧
      out.node = n ∧
      (now < T + Duration.ofSeconds D →
        out.deleteRequests = [] ∧ out.err = none ∧
        0 < out.result.RequeueAfter ∧ out.result.RequeueAfter ≤ T + Duration.ofSeconds D - now) ∧
      (now = T + Duration.ofSeconds D →
        out.deleteRequests = [] ∧ out.err = none ∧ out.result.RequeueAfter = 0) ∧
      (T + Duration.ofSeconds D < now → out.deleteRequests = [n]) := by
  rw [Emptiness.Reconcile_countdown _ rfc provisioner n D v T hD hinit hnom hempty hann hT]
  simp only [Clock.fixed]
  by_cases hlt : T + Duration.ofSeconds D < now
  · cases hdel : kubeClient.Delete n <;> simp [hlt] <;> omega
  · have hs := Time.Sub_of_le (T + Duration.ofSeconds D) now (by omega)
    rw [if_neg hlt]
    refine ⟨_, rfl, rfl, fun h => ⟨rfl, rfl, hs.2.2.2 h, hs.2.1⟩, fun h => ⟨rfl, rfl, hs.2.2.1 h.symm⟩,
      fun h => absurd h hlt⟩

/-- C1, an instance: with the stamp 2023-01-01T00:00:10Z and a TTL of 600 seconds, the pass at
`T0 + 611s` requests deletion of the node exactly once. -/
theorem emptiness_deletes_strictly_after_ttl_witness :
    ∃ out, Emptiness.Reconcile ⟨clientListing [], Clock.fixed (T0 + 611 * Second), clusterIdle⟩
        rfc3339UTC (provisionerWith (some 600) none) (nodeA stampedAt10) = some out ∧
      out.deleteRequests = [nodeA stampedAt10] := by
  obtain ⟨out, h, _, _, _, hdel⟩ :=
    emptiness_deletes_strictly_after_ttl (clientListing []) clusterIdle rfc3339UTC
      (provisionerWith (some 600) none) (nodeA stampedAt10) 600 "2023-01-01T00:00:10Z"
      (T0 + 10 * Second) (T0 + 611 * Second) rfl (by decide) rfl (by decide) (by decide) (by decide)
  exact ⟨out, h, hdel (by decide)⟩

/-- C1 as stated fails: a node initialized, not nominated, observed empty, stamped at
`T = T0 + 10s`, with `D = 600`; the pass at clock time exactly `T + D = T0 + 610s` requests no
deletion and returns the requeue zero. -/
theorem emptiness_no_delete_at_exact_ttl :
    StringMap.get (nodeA stampedAt10).Labels LabelNodeInitialized = "true" ∧
    clusterIdle.IsNodeNominated (nodeA stampedAt10).Name = false ∧
    Emptiness.isEmpty ⟨clientListing [], Clock.fixed (T0 + 610 * Second), clusterIdle⟩
      (nodeA stampedAt10) = (true, none) ∧
    rfc3339UTC.Parse (StringMap.get stampedAt10 EmptinessTimestampAnnotationKey)
      = some (T0 + 10 * Second) ∧
    T0 + 610 * Second = (T0 + 10 * Second) + 600 * Second ∧
    Emptiness.Reconcile ⟨clientListing [], Clock.fixed (T0 + 610 * Second), clusterIdle⟩
        rfc3339UTC (provisionerWith (some 600) none) (nodeA stampedAt10)
      = some { result := { RequeueAfter := 0 }, err := none, node := nodeA stampedAt10,
               deleteRequests := [] } := by
  decide

/-- C2 (as amended): an initialized, non-nominated, empty node without an emptiness timestamp is
stamped by a first pass at clock time `t`, which returns the requeue `R` of `D` seconds. Let the
stamp read back as `t` truncated to the second, as an RFC3339 text does. A second pass on the
resulting node, still empty and not nominated, requests deletion of the node (and, when the
delete call succeeds, increments the `emptiness` counter once) at every clock time strictly after
`trunc t + R`, and requests nothing at any clock time up to `trunc t + R`. In particular the pass
at exactly `t + R` requests nothing and returns requeue zero when `t` is a whole second, and
requests the deletion when `t` has a sub-second part. -/
theorem emptiness_second_pass_after_requeue
    (kubeClient kubeClient2 : Client) (cluster cluster2 : Cluster) (rfc : RFC3339)
    (provisioner : Provisioner) (n : Node) (D t : Int) (pods pods2 : List Pod)
    (hD : provisioner.Spec.TTLSecondsAfterEmpty = some D)
    (hinit : StringMap.get n.Labels LabelNodeInitialized = "true")
    (hann : StringMap.lookup n.Annotations EmptinessTimestampAnnotationKey = none)
    (hnom : cluster.IsNodeNominated n.Name = false)
    (hlist : kubeClient.List n.Name = Except.ok pods)
    (hpods : Emptiness.isEmpty.loop pods = true)
    (hnom2 : cluster2.IsNodeNominated n.Name = false)
    (hlist2 : kubeClient2.List n.Name = Except.ok pods2)
    (hpods2 : Emptiness.isEmpty.loop pods2 = true)
    (hrt : rfc.Parse (rfc.Format t) = some (Time.truncSecond t)) :
    ∃ out1, Emptiness.Reconcile ⟨kubeClient, Clock.fixed t, cluster⟩ rfc provisioner n = some out1 ∧
      out1.deleteRequests = [] ∧
      StringMap.lookup out1.node.Annotations EmptinessTimestampAnnotationKey = some (rfc.Format t) ∧
      out1.result.RequeueAfter = Duration.ofSeconds D ∧
      ∀ now2 : Int,
        ∃ out2, Emptiness.Reconcile ⟨kubeClient2, Clock.fixed now2, cluster2⟩ rfc provisioner out1.node
            = some out2 ∧
          (Time.truncSecond t + out1.result.RequeueAfter < now2 →
            out2.deleteRequests = [out1.node] ∧
            (kubeClient2.Delete out1.node = none → out2.err = none ∧ out2.terminated = [EmptinessReason])) ∧
          (now2 ≤ Time.truncSecond t + out1.result.RequeueAfter →
            out2.deleteRequests = [] ∧ out2.terminated = []) ∧
          (now2 = t + out1.result.RequeueAfter → t % Second = 0 →
            out2.deleteRequests = [] ∧ out2.terminated = [] ∧ out2.err = none ∧
            out2.result.RequeueAfter = 0) ∧
          (now2 = t + out1.result.RequeueAfter → t % Second ≠ 0 →
            out2.deleteRequests = [out1.node]) := by
  have hempty : Emptiness.isEmpty ⟨kubeClient, Clock.fixed t, cluster⟩ n = (true, none) := by
    rw [Emptiness.isEmpty_of_list _ n pods hlist, hpods]
  rw [Emptiness.Reconcile_arm _ rfc provisioner n D hD hinit hnom hempty hann]
  refine ⟨_, rfl, rfl, by simp [StringMap.lookup, List.lookup, Clock.fixed], rfl, ?_⟩
  intro now2
  have key : ∀ m : Node, m.Name = n.Name → m.Labels = n.Labels →
      StringMap.lookup m.Annotations EmptinessTimestampAnnotationKey = some (rfc.Format t) →
      ∃ out2, Emptiness.Reconcile ⟨kubeClient2, Clock.fixed now2, cluster2⟩ rfc provisioner m
          = some out2 ∧
        (Time.truncSecond t + Duration.ofSeconds D < now2 →
          out2.deleteRequests = [m] ∧
          (kubeClient2.Delete m = none → out2.err = none ∧ out2.terminated = [EmptinessReason])) ∧
        (now2 ≤ Time.truncSecond t + Duration.ofSeconds D →
          out2.deleteRequests = [] ∧ out2.terminated = []) ∧
        (now2 = t + Duration.ofSeconds D → t % Second = 0 →
          out2.deleteRequests = [] ∧ out2.terminated = [] ∧ out2.err = none ∧
          out2.result.RequeueAfter = 0) ∧
        (now2 = t + Duration.ofSeconds D → t % Second ≠ 0 → out2.deleteRequests = [m]) := by
    intro m hname hlabels hstamp
    have hempty2 : Emptiness.isEmpty ⟨kubeClient2, Clock.fixed now2, cluster2⟩ m = (true, none) := by
      rw [Emptiness.isEmpty_of_list _ m pods2 (by rw [hname]; exact hlist2), hpods2]
    rw [Emptiness.Reconcile_countdown ⟨kubeClient2, Clock.fixed now2, cluster2⟩ rfc provisioner m D
      (rfc.Format t) (Time.truncSecond t) hD (by rw [hlabels]; exact hinit)
      (by rw [hname]; exact hnom2) hempty2 hstamp hrt]
    simp only [Clock.fixed]
    by_cases hlt : Time.truncSecond t + Duration.ofSeconds D < now2
    · have hne : ¬ now2 ≤ Time.truncSecond t + Duration.ofSeconds D := by omega
      have hne2 : now2 = t + Duration.ofSeconds D → ¬ t % Second = 0 := by
        intro h1 h2
        simp only [Time.truncSecond] at hlt
        omega
      rw [if_pos hlt]
      cases hdel : kubeClient2.Delete m
      · exact ⟨_, rfl, fun _ => ⟨rfl, fun _ => ⟨rfl, rfl⟩⟩, fun h => absurd h hne,
          fun h1 h2 => absurd h2 (hne2 h1), fun _ _ => rfl⟩
      · exact ⟨_, rfl, fun _ => ⟨rfl, fun h => by cases h⟩, fun h => absurd h hne,
          fun h1 h2 => absurd h2 (hne2 h1), fun _ _ => rfl⟩
    · have hs := Time.Sub_of_le (Time.truncSecond t + Duration.ofSeconds D) now2 (by omega)
      rw [if_neg hlt]
      refine ⟨_, rfl, fun h => absurd h hlt, fun _ => ⟨rfl, rfl⟩, fun h1 h2 => ⟨rfl, rfl, rfl, ?_⟩,
        fun h1 h2 => ?_⟩
      · apply hs.2.2.1
        simp only [Time.truncSecond]
        omega
      · exfalso
        simp only [Time.truncSecond, Second] at hlt h2
        omega
  exact key _ rfl rfl (by simp [StringMap.lookup, List.lookup, Clock.fixed])

/-- C2, an instance: `D = 600`, first pass at `T0 + 10s`, second pass at `T0 + 611s`: the second
pass requests deletion and increments the `emptiness` counter. -/
theorem emptiness_second_pass_after_requeue_witness :
    ∃ out1 out2,
      Emptiness.Reconcile ⟨clientListing [], Clock.fixed (T0 + 10 * Second), clusterIdle⟩
        rfc3339UTC (provisionerWith (some 600) none) (nodeA none) = some out1 ∧
      Emptiness.Reconcile ⟨clientListing [], Clock.fixed (T0 + 611 * Second), clusterIdle⟩
        rfc3339UTC (provisionerWith (some 600) none) out1.node = some out2 ∧
      out2.deleteRequests = [out1.node] ∧ out2.terminated = [EmptinessReason] := by
  obtain ⟨out1, h1, _, _, hR, h2⟩ :=
    emptiness_second_pass_after_requeue (clientListing []) (clientListing []) clusterIdle
      clusterIdle rfc3339UTC (provisionerWith (some 600) none) (nodeA none) 600 (T0 + 10 * Second)
      [] [] rfl (by decide) (by decide) rfl rfl rfl rfl rfl rfl (by decide)
  obtain ⟨out2, h3, hafter, _, _, _⟩ := h2 (T0 + 611 * Second)
  have hlate : Time.truncSecond (T0 + 10 * Second) + out1.result.RequeueAfter
      < T0 + 611 * Second := by
    rw [hR]
    decide
  exact ⟨out1, out2, h1, h3, (hafter hlate).1, ((hafter hlate).2 rfl).2⟩

/-- C2 as stated fails at its own example: `D = 600`, the first pass at `T0 + 10s` stamps the node
and returns a requeue of 600 seconds; the second pass at `T0 + 610s`, the node still empty and not
nominated, requests no deletion and increments no counter. -/
theorem emptiness_scenario_no_delete_at_610 :
    Emptiness.Reconcile ⟨clientListing [], Clock.fixed (T0 + 10 * Second), clusterIdle⟩
        rfc3339UTC (provisionerWith (some 600) none) (nodeA none)
      = some { result := { RequeueAfter := 600 * Second }, err := none, node := nodeA stampedAt10 } ∧
    Emptiness.Reconcile ⟨clientListing [], Clock.fixed (T0 + 10 * Second + 600 * Second), clusterIdle⟩
        rfc3339UTC (provisionerWith (some 600) none) (nodeA stampedAt10)
      = some { result := { RequeueAfter := 0 }, err := none, node := nodeA stampedAt10,
               deleteRequests := [], terminated := [] } := by
  decide

/-- C3 (as amended): for a provisioner with `ttlSecondsAfterEmpty = D`, where `D` seconds fit in
a `time.Duration`, and an initialized, non-nominated node observed empty that has no
emptiness-timestamp annotation, the pass sets the annotation to the clock's current time in
RFC3339 format, returns `RequeueAfter` equal to `D` seconds with no error, and requests no
deletion. -/
theorem emptiness_arms_countdown
    (r : Emptiness) (rfc : RFC3339) (provisioner : Provisioner) (n : Node) (D : Int)
    (hD : provisioner.Spec.TTLSecondsAfterEmpty = some D)
    (hfit : minDuration ≤ D * Second ∧ D * Second ≤ maxDuration)
    (hinit : StringMap.get n.Labels LabelNodeInitialized = "true")
    (hnom : r.cluster.IsNodeNominated n.Name = false)
    (hempty : Emptiness.isEmpty r n = (true, none))
    (hann : StringMap.lookup n.Annotations EmptinessTimestampAnnotationKey = none) :
    ∃ out, Emptiness.Reconcile r rfc provisioner n = some out ∧
      StringMap.lookup out.node.Annotations EmptinessTimestampAnnotationKey
        = some (rfc.Format (r.clock.Now 0)) ∧
      out.result = { Requeue := false, RequeueAfter := D * Second } ∧
      out.err = none ∧ out.deleteRequests = [] ∧ out.terminated = [] := by
  rw [Emptiness.Reconcile_arm r rfc provisioner n D hD hinit hnom hempty hann,
    Duration.ofSeconds_exact D hfit.1 hfit.2]
  exact ⟨_, rfl, by simp [StringMap.lookup, List.lookup], rfl, rfl, rfl, rfl⟩

/-- C3, an instance: `D = 600` and a pass at `T0 + 10s` on a node without annotations. -/
theorem emptiness_arms_countdown_witness :
    ∃ out, Emptiness.Reconcile ⟨clientListing [], Clock.fixed (T0 + 10 * Second), clusterIdle⟩
        rfc3339UTC (provisionerWith (some 600) none) (nodeA none) = some out ∧
      StringMap.lookup out.node.Annotations EmptinessTimestampAnnotationKey
        = some "2023-01-01T00:00:10Z" ∧
      out.result = { Requeue := false, RequeueAfter := 600 * Second } ∧
      out.err = none ∧ out.deleteRequests = [] ∧ out.terminated = [] :=
  emptiness_arms_countdown ⟨clientListing [], Clock.fixed (T0 + 10 * Second), clusterIdle⟩
    rfc3339UTC (provisionerWith (some 600) none) (nodeA none) 600 rfl (by decide) (by decide) rfl
    (by decide) (by decide)

/-- C3 as stated fails for a TTL beyond the range of a `time.Duration`: with
`ttlSecondsAfterEmpty = 9223372037` the product `time.Duration(D) * time.Second` wraps, and the
pass returns a negative `RequeueAfter`, not `D` seconds. -/
theorem emptiness_requeue_wraps_beyond_duration_range :
    Emptiness.Reconcile ⟨clientListing [], Clock.fixed (T0 + 10 * Second), clusterIdle⟩
        rfc3339UTC (provisionerWith (some 9223372037) none) (nodeA none)
      = some { result := { RequeueAfter := -9223372036709551616 }, err := none,
               node := nodeA stampedAt10 } ∧
    (-9223372036709551616 : Int) ≠ 9223372037 * Second := by
  decide

/-! ## Emptiness: the gates -/

/-- C4: when the provisioner has no `ttlSecondsAfterEmpty`, or the node's initialized label is not
`"true"`, the pass returns the empty result with no error, requests no deletion, increments no
counter and leaves the node (so its annotations) unchanged, whatever the client, the clock, the
cluster state and the annotations are. -/
theorem emptiness_inert_when_gated
    (r : Emptiness) (rfc : RFC3339) (provisioner : Provisioner) (n : Node)
    (h : provisioner.Spec.TTLSecondsAfterEmpty = none ∨
      StringMap.get n.Labels LabelNodeInitialized ≠ "true") :
    Emptiness.Reconcile r rfc provisioner n
      = some { result := { Requeue := false, RequeueAfter := 0 }, err := none, node := n,
               deleteRequests := [], terminated := [] } := by
  unfold Emptiness.Reconcile
  rcases h with h | h
  · simp [h]
  · cases hD : provisioner.Spec.TTLSecondsAfterEmpty <;> simp [h]

/-- C4, two instances: a provisioner without TTL, and an uninitialized node, both with a stale
emptiness timestamp, a running pod and a nomination. -/
theorem emptiness_inert_when_gated_witness :
    Emptiness.Reconcile ⟨clientListing [podRunning], Clock.fixed (T0 + 10000 * Second),
        clusterNominating⟩ rfc3339UTC (provisionerWith none none) (nodeA stampedAt10)
      = some { result := { Requeue := false, RequeueAfter := 0 }, err := none,
               node := nodeA stampedAt10, deleteRequests := [], terminated := [] } ∧
    Emptiness.Reconcile ⟨clientListing [], Clock.fixed (T0 + 10000 * Second), clusterIdle⟩
        rfc3339UTC (provisionerWith (some 600) none) nodeFresh
      = some { result := { Requeue := false, RequeueAfter := 0 }, err := none,
               node := nodeFresh, deleteRequests := [], terminated := [] } :=
  ⟨emptiness_inert_when_gated _ _ _ _ (Or.inl rfl),
   emptiness_inert_when_gated _ _ _ _ (Or.inr (by decide))⟩

/-- C5: for a node that the cluster state reports as nominated, whatever the pods, annotations,
TTL and clock time are, the pass requests no deletion, increments no counter, leaves the node
unchanged and returns the empty result; it returns no error for every pod list that the listing
call returns. -/
theorem emptiness_spares_nominated
    (r : Emptiness) (rfc : RFC3339) (provisioner : Provisioner) (n : Node)
    (hnom : r.cluster.IsNodeNominated n.Name = true) :
    ∃ out, Emptiness.Reconcile r rfc provisioner n = some out ∧
      out.deleteRequests = [] ∧ out.terminated = [] ∧ out.node = n ∧
      out.result = { Requeue := false, RequeueAfter := 0 } ∧
      (∀ pods, r.kubeClient.List n.Name = Except.ok pods → out.err = none) := by
  unfold Emptiness.Reconcile
  cases hD : provisioner.Spec.TTLSecondsAfterEmpty with
  | none => simp
  | some D =>
    by_cases hinit : StringMap.get n.Labels LabelNodeInitialized = "true"
    · cases hl : r.kubeClient.List n.Name with
      | error e => simp [hinit, Emptiness.isEmpty, hl]
      | ok pods => simp [hinit, Emptiness.isEmpty, hl, hnom]
    · simp [hinit]

/-- C5, an instance: a nominated, empty node whose stamp is far older than the TTL. -/
theorem emptiness_spares_nominated_witness :
    ∃ out, Emptiness.Reconcile ⟨clientListing [], Clock.fixed (T0 + 10000 * Second),
        clusterNominating⟩ rfc3339UTC (provisionerWith (some 600) none) (nodeA stampedAt10)
        = some out ∧
      out.deleteRequests = [] ∧ out.result = { Requeue := false, RequeueAfter := 0 } ∧
      out.err = none := by
  obtain ⟨out, h, hdel, _, _, hres, herr⟩ :=
    emptiness_spares_nominated ⟨clientListing [], Clock.fixed (T0 + 10000 * Second),
      clusterNominating⟩ rfc3339UTC (provisionerWith (some 600) none) (nodeA stampedAt10) rfl
  exact ⟨out, h, hdel, hres, herr [] rfl⟩

/-- C6 (as amended): for an initialized node with `ttlSecondsAfterEmpty` configured, a pass whose
pod listing succeeds and contains a pod that is neither terminal, daemon-owned nor node-owned
returns the empty result with no error and requests no deletion; when the node is not nominated
the emptiness-timestamp annotation is absent afterwards, and when the node is nominated the node
is left as it was. -/
theorem emptiness_clears_stamp_when_not_empty
    (r : Emptiness) (rfc : RFC3339) (provisioner : Provisioner) (n : Node) (D : Int)
    (pods : List Pod) (p : Pod)
    (hD : provisioner.Spec.TTLSecondsAfterEmpty = some D)
    (hinit : StringMap.get n.Labels LabelNodeInitialized = "true")
    (hlist : r.kubeClient.List n.Name = Except.ok pods)
    (hp : p ∈ pods) (h1 : pod.IsTerminal p = false) (h2 : pod.IsOwnedByDaemonSet p = false)
    (h3 : pod.IsOwnedByNode p = false) :
    ∃ out, Emptiness.Reconcile r rfc provisioner n = some out ∧
      out.result = { Requeue := false, RequeueAfter := 0 } ∧ out.err = none ∧
      out.deleteRequests = [] ∧
      (r.cluster.IsNodeNominated n.Name = false →
        StringMap.lookup out.node.Annotations EmptinessTimestampAnnotationKey = none) ∧
      (r.cluster.IsNodeNominated n.Name = true → out.node = n) := by
  have hempty := Emptiness.isEmpty_of_list r n pods hlist
  rw [Emptiness.isEmpty_loop_false pods p hp h1 h2 h3] at hempty
  unfold Emptiness.Reconcile
  simp only [hD, hinit, hempty]
  cases hnom : r.cluster.IsNodeNominated n.Name with
  | true => simp
  | false =>
    cases hann : StringMap.lookup n.Annotations EmptinessTimestampAnnotationKey with
    | none => simp [hann]
    | some v => simp [StringMap.lookup_delete_self]

/-- C6, an instance: a stamped node that is not nominated and runs a pod loses its stamp. -/
theorem emptiness_clears_stamp_when_not_empty_witness :
    ∃ out, Emptiness.Reconcile ⟨clientListing [podRunning], Clock.fixed (T0 + 20 * Second),
        clusterIdle⟩ rfc3339UTC (provisionerWith (some 600) none) (nodeA stampedAt10) = some out ∧
      StringMap.lookup out.node.Annotations EmptinessTimestampAnnotationKey = none ∧
      out.result = { Requeue := false, RequeueAfter := 0 } := by
  obtain ⟨out, h, hres, _, _, hclear, _⟩ :=
    emptiness_clears_stamp_when_not_empty ⟨clientListing [podRunning],
      Clock.fixed (T0 + 20 * Second), clusterIdle⟩ rfc3339UTC (provisionerWith (some 600) none)
      (nodeA stampedAt10) 600 [podRunning] podRunning rfl (by decide) rfl (by decide) rfl rfl rfl
  exact ⟨out, h, hclear rfl, hres⟩

/-- C6 as stated fails for a nominated node: initialized, TTL configured, stamped, observed
non-empty (the listing succeeds and holds a running pod), the pass leaves the
emptiness-timestamp annotation in place. -/
theorem emptiness_keeps_stamp_when_nominated :
    pod.IsTerminal podRunning = false ∧ pod.IsOwnedByDaemonSet podRunning = false ∧
    pod.IsOwnedByNode podRunning = false ∧
    Emptiness.Reconcile ⟨clientListing [podRunning], Clock.fixed (T0 + 20 * Second),
        clusterNominating⟩ rfc3339UTC (provisionerWith (some 600) none) (nodeA stampedAt10)
      = some { result := {}, err := none, node := nodeA stampedAt10 } ∧
    StringMap.lookup (nodeA stampedAt10).Annotations EmptinessTimestampAnnotationKey
      = some "2023-01-01T00:00:10Z" := by
  decide

/-! ## Requeue durations -/

/-- C7 (as amended): with the clock fixed at `now`, the system clock read by `time.Until` showing
the same instant, and a non-negative `ttlSecondsAfterEmpty` duration, the `RequeueAfter` returned
by `Emptiness.Reconcile` and by `Expiration.Reconcile` is non-negative in every pass that requests
no deletion. In a pass that deletes the node the deadline has passed (`now` is strictly after the
parsed emptiness timestamp plus the TTL, or after the creation time plus the TTL) and the returned
`RequeueAfter` is `deadline - now` as `Time.Sub` computes it, exact within the range of a
`Duration`, which is negative: it is not clamped to zero. -/
theorem requeue_nonnegative_until_deadline
    (kubeClient : Client) (cluster : Cluster) (rfc : RFC3339) (provisioner : Provisioner)
    (n : Node) (now : Int)
    (httl : ∀ D, provisioner.Spec.TTLSecondsAfterEmpty = some D → 0 ≤ Duration.ofSeconds D) :
    (∃ out, Emptiness.Reconcile ⟨kubeClient, Clock.fixed now, cluster⟩ rfc provisioner n = some out ∧
      (out.deleteRequests = [] → 0 ≤ out.result.RequeueAfter) ∧
      (out.terminated ≠ [] → out.result.RequeueAfter < 0) ∧
      (out.terminated ≠ [] →
        ∃ D v T, provisioner.Spec.TTLSecondsAfterEmpty = some D ∧
          StringMap.lookup n.Annotations EmptinessTimestampAnnotationKey = some v ∧
          rfc.Parse v = some T ∧ T + Duration.ofSeconds D < now ∧
          out.result.RequeueAfter = Time.Sub (T + Duration.ofSeconds D) now ∧
          (minDuration ≤ T + Duration.ofSeconds D - now →
            out.result.RequeueAfter = T + Duration.ofSeconds D - now))) ∧
    (∃ out, Expiration.Reconcile ⟨kubeClient, Clock.fixed now⟩ now provisioner n = some out ∧
      (out.deleteRequests = [] → 0 ≤ out.result.RequeueAfter) ∧
      (out.terminated ≠ [] → out.result.RequeueAfter < 0) ∧
      (out.terminated ≠ [] →
        ∃ D, provisioner.Spec.TTLSecondsUntilExpired = some D ∧
          n.CreationTimestamp + Duration.ofSeconds D < now ∧
          out.result.RequeueAfter = Time.Sub (n.CreationTimestamp + Duration.ofSeconds D) now ∧
          (minDuration ≤ n.CreationTimestamp + Duration.ofSeconds D - now →
            out.result.RequeueAfter = n.CreationTimestamp + Duration.ofSeconds D - now))) := by
  have hexact : ∀ t u : Int, t < u → minDuration ≤ t - u → Time.Sub t u = t - u := by
    intro t u h1 h2
    simp only [Time.Sub, minDuration, maxDuration] at *
    split_ifs <;> omega
  constructor
  · unfold Emptiness.Reconcile
    cases hD : provisioner.Spec.TTLSecondsAfterEmpty with
    | none => simp
    | some D =>
      have hpos := httl D hD
      by_cases hinit : StringMap.get n.Labels LabelNodeInitialized = "true"
      swap
      · simp [hinit]
      cases hl : kubeClient.List n.Name with
      | error e => simp [hinit, Emptiness.isEmpty, hl]
      | ok pods =>
        cases hnom : cluster.IsNodeNominated n.Name with
        | true => simp [hinit, Emptiness.isEmpty, hl, hnom]
        | false =>
          cases hloop : Emptiness.isEmpty.loop pods with
          | false =>
            cases hann : StringMap.lookup n.Annotations EmptinessTimestampAnnotationKey <;>
              simp [hinit, Emptiness.isEmpty, hl, hnom, hloop, hann]
          | true =>
            cases hann : StringMap.lookup n.Annotations EmptinessTimestampAnnotationKey with
            | none =>
              simp [hinit, Emptiness.isEmpty, hl, hnom, hloop, hann, StringMap.set_Assign, hpos]
            | some v =>
              have hget := StringMap.get_of_lookup hann
              rw [hget]
              cases hT : rfc.Parse v with
              | none => simp [hinit, Emptiness.isEmpty, hl, hnom, hloop, hann, hT]
              | some T =>
                simp only [hinit, Emptiness.isEmpty, hl, hnom, hloop, hann, hT, Clock.fixed,
                  Time.After, Time.Add]
                by_cases hlt : T + Duration.ofSeconds D < now
                · have hneg := Time.Sub_of_lt _ _ hlt
                  cases hdel : kubeClient.Delete { n with Annotations := lo.Assign n.Annotations }
                  · simp only [hlt, decide_True, if_true]
                    refine ⟨_, rfl, ?_, fun _ => hneg,
                      fun _ => ⟨D, v, T, rfl, rfl, hT, hlt, rfl, hexact _ _ hlt⟩⟩
                    intro h
                    simp at h
                  · simp [hlt, hdel]
                · have hs := Time.Sub_of_le _ _ (not_lt.mp hlt)
                  simp [hlt, hs.1]
  · unfold Expiration.Reconcile
    cases hD : provisioner.Spec.TTLSecondsUntilExpired with
    | none => simp
    | some D =>
      simp only [Clock.fixed, Time.After, Time.Add, Time.Until]
      by_cases hlt : n.CreationTimestamp + Duration.ofSeconds D < now
      · have hneg := Time.Sub_of_lt _ _ hlt
        cases hdel : kubeClient.Delete n
        · simp only [hlt, decide_True, if_true]
          refine ⟨_, rfl, ?_, fun _ => hneg, fun _ => ⟨D, rfl, hlt, rfl, hexact _ _ hlt⟩⟩
          intro h
          simp at h
        · simp [hlt]
      · have hs := Time.Sub_of_le _ _ (not_lt.mp hlt)
        simp [hlt, hs.1]

/-- C7, an instance: TTLs of 600 and 3600 seconds, a node stamped ten seconds after its creation,
at the instant `T0 + 3700s`, after both deadlines: both passes delete the node and return the
negative remaining time, `-3090s` and `-100s`. -/
theorem requeue_nonnegative_until_deadline_witness :
    (∃ out, Emptiness.Reconcile ⟨clientListing [], Clock.fixed (T0 + 3700 * Second), clusterIdle⟩
        rfc3339UTC (provisionerWith (some 600) (some 3600)) (nodeA stampedAt10) = some out ∧
      out.terminated = [EmptinessReason] ∧ out.result.RequeueAfter = -(3090 * Second)) ∧
    (∃ out, Expiration.Reconcile ⟨clientListing [], Clock.fixed (T0 + 3700 * Second)⟩
        (T0 + 3700 * Second) (provisionerWith (some 600) (some 3600)) (nodeA stampedAt10)
        = some out ∧
      out.terminated = [ExpirationReason] ∧ out.result.RequeueAfter = -(100 * Second)) := by
  obtain ⟨⟨o1, h1, _, _, e1⟩, ⟨o2, h2, _, _, e2⟩⟩ :=
    requeue_nonnegative_until_deadline (clientListing []) clusterIdle rfc3339UTC
      (provisionerWith (some 600) (some 3600)) (nodeA stampedAt10) (T0 + 3700 * Second)
      (by intro D h; cases h; decide)
  have t1 : o1.terminated = [EmptinessReason] := by
    have g : Emptiness.Reconcile ⟨clientListing [], Clock.fixed (T0 + 3700 * Second), clusterIdle⟩
        rfc3339UTC (provisionerWith (some 600) (some 3600)) (nodeA stampedAt10)
        = some { result := { RequeueAfter := -(3090 * Second) }, err := none,
                 node := nodeA stampedAt10, deleteRequests := [nodeA stampedAt10],
                 terminated := [EmptinessReason] } := by decide
    rw [g] at h1
    cases h1
    rfl
  have t2 : o2.terminated = [ExpirationReason] := by
    have g : Expiration.Reconcile ⟨clientListing [], Clock.fixed (T0 + 3700 * Second)⟩
        (T0 + 3700 * Second) (provisionerWith (some 600) (some 3600)) (nodeA stampedAt10)
        = some { result := { RequeueAfter := -(100 * Second) }, err := none,
                 node := nodeA stampedAt10, deleteRequests := [nodeA stampedAt10],
                 terminated := [ExpirationReason] } := by decide
    rw [g] at h2
    cases h2
    rfl
  obtain ⟨D1, v1, T1, hD1, hv1, hT1, _, _, x1⟩ := e1 (by rw [t1]; decide)
  obtain ⟨D2, hD2, _, _, x2⟩ := e2 (by rw [t2]; decide)
  cases hD1
  cases hv1
  cases hD2
  have hT : T1 = T0 + 10 * Second := by
    have g : rfc3339UTC.Parse "2023-01-01T00:00:10Z" = some (T0 + 10 * Second) := by decide
    rw [g] at hT1
    cases hT1
    rfl
  subst hT
  exact ⟨⟨o1, h1, t1, by rw [x1 (by decide)]; decide⟩, ⟨o2, h2, t2, by rw [x2 (by decide)]; decide⟩⟩

/-- C7 as stated fails. Once a deadline has passed the returned `RequeueAfter` is negative: the
emptiness pass one second after the emptiness deadline returns `-1s`, the expiration pass one
hundred seconds after the expiry deadline `-100s`. It is negative without any deletion as well:
when the TTL duration itself is negative, as the wrapped product for `ttlSecondsAfterEmpty =
9223372037` is, the pass that stamps the node returns it; when the clock advances between the
two readings of a pass, from the deadline to one second later; and when the system clock that
`time.Until` reads is ahead of the injected clock. -/
theorem requeue_negative_after_deadline :
    Emptiness.Reconcile ⟨clientListing [], Clock.fixed (T0 + 611 * Second), clusterIdle⟩
        rfc3339UTC (provisionerWith (some 600) none) (nodeA stampedAt10)
      = some { result := { RequeueAfter := -1000000000 }, err := none, node := nodeA stampedAt10,
               deleteRequests := [nodeA stampedAt10], terminated := [EmptinessReason] } ∧
    Expiration.Reconcile ⟨clientListing [], Clock.fixed (T0 + 3700 * Second)⟩ (T0 + 3700 * Second)
        (provisionerWith none (some 3600)) (nodeA none)
      = some { result := { RequeueAfter := -100000000000 }, err := none, node := nodeA none,
               deleteRequests := [nodeA none], terminated := [ExpirationReason] } ∧
    Emptiness.Reconcile ⟨clientListing [], Clock.fixed (T0 + 10 * Second), clusterIdle⟩
        rfc3339UTC (provisionerWith (some 9223372037) none) (nodeA none)
      = some { result := { RequeueAfter := -9223372036709551616 }, err := none,
               node := nodeA stampedAt10, deleteRequests := [], terminated := [] } ∧
    Emptiness.Reconcile ⟨clientListing [], clockTicking (T0 + 610 * Second), clusterIdle⟩
        rfc3339UTC (provisionerWith (some 600) none) (nodeA stampedAt10)
      = some { result := { RequeueAfter := -1000000000 }, err := none, node := nodeA stampedAt10,
               deleteRequests := [], terminated := [] } ∧
    Expiration.Reconcile ⟨clientListing [], Clock.fixed (T0 + 3599 * Second)⟩ (T0 + 3700 * Second)
        (provisionerWith none (some 3600)) (nodeA none)
      = some { result := { RequeueAfter := -100000000000 }, err := none, node := nodeA none,
               deleteRequests := [], terminated := [] } := by
  decide

/-! ## Expiration -/

/-- C8 (as amended): `Expiration.Reconcile` requests deletion of the node, once, if and only if
`ttlSecondsUntilExpired` is configured and the injected clock's time is strictly after
`creationTimestamp + ttl`, the TTL held as `time.Duration(ttl) * time.Second`. The `expiration`
counter is incremented, once, exactly when deletion is requested and the delete call succeeds.
Without `ttlSecondsUntilExpired` the pass returns the empty result and no error. The node is never
modified. -/
theorem expiration_deletes_strictly_after_deadline
    (r : Expiration) (systemNow : Int) (provisioner : Provisioner) (node : Node) :
    ∃ out, Expiration.Reconcile r systemNow provisioner node = some out ∧
      out.node = node ∧
      (out.deleteRequests = [] ∨ out.deleteRequests = [node]) ∧
      (out.deleteRequests = [node] ↔
        ∃ D, provisioner.Spec.TTLSecondsUntilExpired = some D ∧
          node.CreationTimestamp + Duration.ofSeconds D < r.clock.Now 0) ∧
      (out.terminated = [] ∨ out.terminated = [ExpirationReason]) ∧
      (out.terminated = [ExpirationReason] ↔
        out.deleteRequests = [node] ∧ r.kubeClient.Delete node = none) ∧
      (provisioner.Spec.TTLSecondsUntilExpired = none →
        out.result = { Requeue := false, RequeueAfter := 0 } ∧ out.err = none) := by
  unfold Expiration.Reconcile
  cases hD : provisioner.Spec.TTLSecondsUntilExpired with
  | none => simp
  | some D =>
    simp only [Time.After, Time.Add]
    by_cases hlt : node.CreationTimestamp + Duration.ofSeconds D < r.clock.Now 0
    · cases hdel : r.kubeClient.Delete node <;> simp [hlt]
    · simp [hlt]

/-- C8 as stated fails at the deadline itself: with `ttlSecondsUntilExpired = 3600` and the clock
at exactly `creationTimestamp + 3600s`, the TTL is configured and `now >= deadline` holds, yet
no deletion is requested. -/
theorem expiration_no_delete_at_exact_deadline :
    (nodeA none).CreationTimestamp + 3600 * Second ≤ T0 + 3600 * Second ∧
    Expiration.Reconcile ⟨clientListing [], Clock.fixed (T0 + 3600 * Second)⟩ (T0 + 3600 * Second)
        (provisionerWith none (some 3600)) (nodeA none)
      = some { result := { RequeueAfter := 0 }, err := none, node := nodeA none,
               deleteRequests := [], terminated := [] } := by
  decide

/-- C9 (as amended): with `ttlSecondsUntilExpired = D` configured and the system clock read by
`time.Until` showing the instant `now` of the injected clock, a pass that returns without error
returns `RequeueAfter = expiryDeadline - now` as `Time.Sub` computes it (exact within the range
of a `Duration`), where `expiryDeadline = creationTimestamp + D` seconds. Up to the deadline the
pass requests no deletion and this equals `max 0 (expiryDeadline - now)`; after the deadline the
pass requests the deletion and the returned duration is negative, not zero. -/
theorem expiration_requeue_is_remaining_time
    (r : Expiration) (systemNow : Int) (provisioner : Provisioner) (node : Node) (D : Int)
    (hD : provisioner.Spec.TTLSecondsUntilExpired = some D)
    (hsys : systemNow = r.clock.Now 0) :
    ∃ out, Expiration.Reconcile r systemNow provisioner node = some out ∧
      (out.err = none →
        out.result.RequeueAfter
          = Time.Sub (node.CreationTimestamp + Duration.ofSeconds D) (r.clock.Now 0) ∧
        (minDuration ≤ node.CreationTimestamp + Duration.ofSeconds D - r.clock.Now 0 →
          node.CreationTimestamp + Duration.ofSeconds D - r.clock.Now 0 ≤ maxDuration →
          out.result.RequeueAfter = node.CreationTimestamp + Duration.ofSeconds D - r.clock.Now 0) ∧
        (r.clock.Now 0 ≤ node.CreationTimestamp + Duration.ofSeconds D →
          out.deleteRequests = [] ∧
          out.result.RequeueAfter
            = max 0 (Time.Sub (node.CreationTimestamp + Duration.ofSeconds D) (r.clock.Now 0))) ∧
        (node.CreationTimestamp + Duration.ofSeconds D < r.clock.Now 0 →
          out.deleteRequests = [node] ∧ out.result.RequeueAfter < 0)) := by
  subst hsys
  have hsub : ∀ t u : Int, minDuration ≤ t - u → t - u ≤ maxDuration → Time.Sub t u = t - u := by
    intro t u h1 h2
    simp only [Time.Sub, minDuration, maxDuration] at *
    split_ifs <;> omega
  unfold Expiration.Reconcile
  simp only [hD, Time.After, Time.Add, Time.Until]
  by_cases hlt : node.CreationTimestamp + Duration.ofSeconds D < r.clock.Now 0
  · have hneg := Time.Sub_of_lt _ _ hlt
    have hle : ¬ r.clock.Now 0 ≤ node.CreationTimestamp + Duration.ofSeconds D := by omega
    cases hdel : r.kubeClient.Delete node
    · rw [decide_eq_true hlt]
      exact ⟨_, rfl, fun _ => ⟨rfl, hsub _ _, fun h => absurd h hle, fun _ => ⟨rfl, hneg⟩⟩⟩
    · simp [hlt]
  · have hs := Time.Sub_of_le _ _ (not_lt.mp hlt)
    rw [decide_eq_false hlt]
    exact ⟨_, rfl, fun _ => ⟨rfl, hsub _ _, fun _ => ⟨rfl, (max_eq_right hs.1).symm⟩,
      fun h => absurd h hlt⟩⟩

/-- C9, an instance: with a TTL of 3600 seconds the pass at `creationTimestamp + 3599s` requests
no deletion and returns a requeue of one second. -/
theorem expiration_requeue_is_remaining_time_witness :
    ∃ out, Expiration.Reconcile ⟨clientListing [], Clock.fixed (T0 + 3599 * Second)⟩
        (T0 + 3599 * Second) (provisionerWith none (some 3600)) (nodeA none) = some out ∧
      out.err = none ∧ out.deleteRequests = [] ∧ out.result.RequeueAfter = 1 * Second := by
  obtain ⟨out, h, hreq⟩ :=
    expiration_requeue_is_remaining_time ⟨clientListing [], Clock.fixed (T0 + 3599 * Second)⟩
      (T0 + 3599 * Second) (provisionerWith none (some 3600)) (nodeA none) 3600 rfl rfl
  have herr : out.err = none := by
    have h2 : Expiration.Reconcile ⟨clientListing [], Clock.fixed (T0 + 3599 * Second)⟩
        (T0 + 3599 * Second) (provisionerWith none (some 3600)) (nodeA none)
        = some { result := { RequeueAfter := 1 * Second }, err := none, node := nodeA none } := by
      decide
    rw [h2] at h
    cases h
    rfl
  obtain ⟨_, hexact, hbefore, _⟩ := hreq herr
  exact ⟨out, h, herr, (hbefore (by decide)).1, by rw [hexact (by decide) (by decide)]; decide⟩

/-- C9 as stated fails after the deadline: with a TTL of 3600 seconds, the injected clock and the
system clock both at `creationTimestamp + 3601s` and the delete call succeeding, the pass returns
no error and `RequeueAfter = -1s`, whereas `max 0 (expiryDeadline - now)` is zero. -/
theorem expiration_requeue_negative_after_deadline :
    Expiration.Reconcile ⟨clientListing [], Clock.fixed (T0 + 3601 * Second)⟩ (T0 + 3601 * Second)
        (provisionerWith none (some 3600)) (nodeA none)
      = some { result := { RequeueAfter := -1000000000 }, err := none, node := nodeA none,
               deleteRequests := [nodeA none], terminated := [ExpirationReason] } ∧
    max 0 ((nodeA none).CreationTimestamp + 3600 * Second - (T0 + 3601 * Second)) = 0 := by
  decide

/-! ## Drift -/

/-- C10: for a node whose `ami-id` annotation is absent or empty, `Drift.Reconcile` does not call
the cloud provider's `IsNodeDrifted`, leaves the node (so its annotations) unchanged and returns
the empty result with no error. -/
theorem drift_skips_without_identity
    (r : Drift) (provisioner : Provisioner) (n : Node)
    (h : StringMap.lookup n.Annotations AmiAnnotationKey = none ∨
      StringMap.lookup n.Annotations AmiAnnotationKey = some "") :
    Drift.Reconcile r provisioner n
      = some { result := { Requeue := false, RequeueAfter := 0 }, err := none, node := n,
               driftChecks := 0 } := by
  unfold Drift.Reconcile
  rcases h with h | h <;> simp [StringMap.get, h]

/-- C10, two instances: a node with no annotation map and a node with an empty `ami-id`, under a
cloud provider that would report drift. -/
theorem drift_skips_without_identity_witness :
    Drift.Reconcile ⟨clientListing [], Clock.fixed T0, clusterIdle, cloudDrifted⟩
        (provisionerWith none none) (nodeA none)
      = some { result := { Requeue := false, RequeueAfter := 0 }, err := none, node := nodeA none,
               driftChecks := 0 } ∧
    Drift.Reconcile ⟨clientListing [], Clock.fixed T0, clusterIdle, cloudDrifted⟩
        (provisionerWith none none) (nodeA (some [("ami-id", "")]))
      = some { result := { Requeue := false, RequeueAfter := 0 }, err := none,
               node := nodeA (some [("ami-id", "")]), driftChecks := 0 } :=
  ⟨drift_skips_without_identity _ _ _ (Or.inl rfl),
   drift_skips_without_identity _ _ _ (Or.inr (by decide))⟩


/-! ## Frame lemmas -/

theorem StringMap.lookup_filter_ne (l : List (String × String)) (k j : String) (h : j ≠ k) :
    List.lookup j (l.filter (fun e => !(e.1 == k))) = List.lookup j l := by
  induction l with
  | nil => rfl
  | cons e l ih =>
    obtain ⟨a, b⟩ := e
    by_cases hak : a = k
    · subst hak
      have hja : (j == a) = false := by simpa using h
      simp only [List.filter, beq_self_eq_true, Bool.not_true, List.lookup, hja, ih]
    · have h3 : (a == k) = false := by simpa using hak
      simp only [List.filter, h3, Bool.not_false, List.lookup, ih]

theorem StringMap.lookup_delete_ne (m : StringMap) (k j : String) (h : j ≠ k) :
    StringMap.lookup (StringMap.delete m k) j = StringMap.lookup m j := by
  cases m with
  | none => rfl
  | some l => exact StringMap.lookup_filter_ne l k j h

theorem StringMap.lookup_set_ne (m m2 : StringMap) (k v j : String) (h : j ≠ k)
    (hs : StringMap.set m k v = some m2) : StringMap.lookup m2 j = StringMap.lookup m j := by
  cases m with
  | none => simp [StringMap.set] at hs
  | some l =>
    simp only [StringMap.set, Option.some.injEq] at hs
    subst hs
    have hjk : (j == k) = false := by simpa using h
    simp only [StringMap.lookup, List.lookup, hjk]
    exact StringMap.lookup_filter_ne l k j h

theorem StringMap.lookup_Assign (m : StringMap) (j : String) :
    StringMap.lookup (lo.Assign m) j = StringMap.lookup m j := by
  cases m <;> rfl

theorem StringMap.get_congr {a b : StringMap} {k : String}
    (h : StringMap.lookup a k = StringMap.lookup b k) : StringMap.get a k = StringMap.get b k := by
  simp [StringMap.get, h]

/-- What every call of `Emptiness.Reconcile` leaves alone: it returns, it keeps the name, the UID,
the creation time and the labels of the node, it keeps every annotation other than the emptiness
timestamp, it requests at most one deletion and it never asks the backend about drift. -/
theorem Emptiness.Reconcile_emptinessFrame (r : Emptiness) (rfc : RFC3339) (provisioner : Provisioner)
    (n : Node) :
    ∃ out, Emptiness.Reconcile r rfc provisioner n = some out ∧
      out.node.Name = n.Name ∧ out.node.UID = n.UID ∧
      out.node.CreationTimestamp = n.CreationTimestamp ∧ out.node.Labels = n.Labels ∧
      (∀ k, k ≠ EmptinessTimestampAnnotationKey →
        StringMap.lookup out.node.Annotations k = StringMap.lookup n.Annotations k) ∧
      out.deleteRequests.length ≤ 1 ∧ out.driftChecks = 0 := by
  unfold Emptiness.Reconcile
  cases hD : provisioner.Spec.TTLSecondsAfterEmpty with
  | none => simp
  | some D =>
    by_cases hinit : StringMap.get n.Labels LabelNodeInitialized = "true"
    swap
    · simp [hinit]
    cases hl : Emptiness.isEmpty r n with
    | mk empty err =>
      cases err with
      | some e => simp [hinit]
      | none =>
        cases hnom : r.cluster.IsNodeNominated n.Name with
        | true => simp [hinit]
        | false =>
          cases empty with
          | false =>
            cases hann : StringMap.lookup n.Annotations EmptinessTimestampAnnotationKey with
            | none => simp [hinit]
            | some v =>
              simp only [hinit, hann]
              simp
              exact fun k hk => StringMap.lookup_delete_ne _ _ k hk
          | true =>
            cases hann : StringMap.lookup n.Annotations EmptinessTimestampAnnotationKey with
            | none =>
              simp only [hinit, hann, StringMap.set_Assign]
              simp
              intro k hk
              have hjk : (k == EmptinessTimestampAnnotationKey) = false := by simpa using hk
              cases hA : n.Annotations with
              | none => simp [StringMap.lookup, List.lookup, hjk]
              | some l =>
                simp only [StringMap.lookup, List.lookup, hjk, Option.getD_some]
                exact StringMap.lookup_filter_ne l _ k hk
            | some v =>
              cases hT : rfc.Parse (StringMap.get n.Annotations EmptinessTimestampAnnotationKey) with
              | none =>
                simp only [hinit, hann, hT]
                simp
                exact fun k _ => StringMap.lookup_Assign _ k
              | some T =>
                simp only [hinit, hann, hT]
                by_cases hlt : Time.After (r.clock.Now 0) (Time.Add T (Duration.ofSeconds D)) = true
                · cases hdel : r.kubeClient.Delete { n with Annotations := lo.Assign n.Annotations } <;>
                    simp [hlt, hdel] <;> exact fun k _ => StringMap.lookup_Assign _ k
                · simp [hlt]
                  exact fun k _ => StringMap.lookup_Assign _ k

/-- What every call of `Drift.Reconcile` leaves alone: it returns, it keeps everything of the
node but the drifted annotation, keeps the annotation map nil or non-nil as it was, requests no
deletion and increments no counter. -/
theorem Drift.Reconcile_driftFrame (r : Drift) (provisioner : Provisioner) (n : Node) :
    ∃ out, Drift.Reconcile r provisioner n = some out ∧
      out.node.Name = n.Name ∧ out.node.UID = n.UID ∧
      out.node.CreationTimestamp = n.CreationTimestamp ∧ out.node.Labels = n.Labels ∧
      (∀ k, k ≠ DriftedAnnotationKey →
        StringMap.lookup out.node.Annotations k = StringMap.lookup n.Annotations k) ∧
      out.node.Annotations.isSome = n.Annotations.isSome ∧
      out.deleteRequests = [] ∧ out.terminated = [] ∧
      out.result = { Requeue := false, RequeueAfter := 0 } ∧ out.err = none := by
  unfold Drift.Reconcile
  by_cases hami : StringMap.get n.Annotations AmiAnnotationKey = ""
  · simp [hami]
  · cases hdr : r.cloudProvider.IsNodeDrifted n provisioner with
    | false => simp [hami]
    | true =>
      cases hA : n.Annotations with
      | none => simp [hA, StringMap.get, StringMap.lookup] at hami
      | some l =>
        rw [hA] at hami
        simp only [hami, StringMap.set]
        simp
        intro k hk
        exact StringMap.lookup_set_ne (some l) _ DriftedAnnotationKey "true" k hk rfl

/-- Every call of `Expiration.Reconcile` returns, leaves the node as it was and requests at most
one deletion. -/
theorem Expiration.Reconcile_expirationFrame (r : Expiration) (systemNow : Int) (provisioner : Provisioner)
    (node : Node) :
    ∃ out, Expiration.Reconcile r systemNow provisioner node = some out ∧ out.node = node ∧
      out.deleteRequests.length ≤ 1 ∧ out.driftChecks = 0 := by
  unfold Expiration.Reconcile
  cases hD : provisioner.Spec.TTLSecondsUntilExpired with
  | none => simp
  | some D =>
    by_cases hlt : Time.After (r.clock.Now 0) (Time.Add node.CreationTimestamp (Duration.ofSeconds D))
        = true
    · cases hdel : r.kubeClient.Delete node <;> simp [hlt]
    · simp [hlt]

/-! ## Drift: the mark is kept -/

/-- C11: for a node whose drifted annotation is `"true"` before the call, whatever the backend
answers and whatever the other annotations, the pods and the clock are, the drifted annotation is
still `"true"` after `Drift.Reconcile`, after `Emptiness.Reconcile` and after
`Expiration.Reconcile`. -/
theorem drifted_annotation_stays_true
    (e : Emptiness) (x : Expiration) (d : Drift) (rfc : RFC3339) (systemNow : Int)
    (provisioner : Provisioner) (n : Node)
    (h : StringMap.get n.Annotations DriftedAnnotationKey = "true") :
    (∃ out, Drift.Reconcile d provisioner n = some out ∧
      StringMap.get out.node.Annotations DriftedAnnotationKey = "true") ∧
    (∃ out, Emptiness.Reconcile e rfc provisioner n = some out ∧
      StringMap.get out.node.Annotations DriftedAnnotationKey = "true") ∧
    (∃ out, Expiration.Reconcile x systemNow provisioner n = some out ∧
      StringMap.get out.node.Annotations DriftedAnnotationKey = "true") := by
  refine ⟨?_, ?_, ?_⟩
  · unfold Drift.Reconcile
    by_cases hami : StringMap.get n.Annotations AmiAnnotationKey = ""
    · simp [hami, h]
    · cases hdr : d.cloudProvider.IsNodeDrifted n provisioner with
      | false => simp [hami, h]
      | true =>
        cases hA : n.Annotations with
        | none => simp [hA, StringMap.get, StringMap.lookup] at hami
        | some l =>
          rw [hA] at hami
          simp only [hami, StringMap.set]
          simp [StringMap.get, StringMap.lookup, List.lookup]
  · obtain ⟨out, ho, _, _, _, _, hk, _⟩ := Emptiness.Reconcile_emptinessFrame e rfc provisioner n
    exact ⟨out, ho, (StringMap.get_congr (hk DriftedAnnotationKey (by decide))).trans h⟩
  · obtain ⟨out, ho, hn, _⟩ := Expiration.Reconcile_expirationFrame x systemNow provisioner n
    exact ⟨out, ho, by rw [hn]; exact h⟩

/-- C11, an instance: a marked node under a backend that now reports no drift, an idle cluster
and a late clock. -/
theorem drifted_annotation_stays_true_witness :
    (∃ out, Drift.Reconcile ⟨clientListing [], Clock.fixed T0, clusterIdle, cloudSteady⟩
        (provisionerWith (some 600) (some 3600)) (nodeA markedDrifted) = some out ∧
      StringMap.get out.node.Annotations DriftedAnnotationKey = "true") ∧
    (∃ out, Emptiness.Reconcile ⟨clientListing [], Clock.fixed (T0 + 3700 * Second), clusterIdle⟩
        rfc3339UTC (provisionerWith (some 600) (some 3600)) (nodeA markedDrifted) = some out ∧
      StringMap.get out.node.Annotations DriftedAnnotationKey = "true") ∧
    (∃ out, Expiration.Reconcile ⟨clientListing [], Clock.fixed (T0 + 3700 * Second)⟩
        (T0 + 3700 * Second) (provisionerWith (some 600) (some 3600)) (nodeA markedDrifted)
        = some out ∧
      StringMap.get out.node.Annotations DriftedAnnotationKey = "true") :=
  drifted_annotation_stays_true _ _ _ _ _ _ _ (by decide)

/-! ## Errors -/

/-- C12 (as amended): for an initialized, non-nominated node observed empty, with
`ttlSecondsAfterEmpty` configured, whose emptiness-timestamp annotation is present with a value
that `time.Parse(time.RFC3339, .)` rejects (the empty string included), the pass returns the
parse error and the empty result, requests no deletion, increments no counter and leaves the
node, so the annotation value, exactly as it was. -/
theorem emptiness_reports_unparsable_stamp
    (r : Emptiness) (rfc : RFC3339) (provisioner : Provisioner) (n : Node) (D : Int) (v : String)
    (hD : provisioner.Spec.TTLSecondsAfterEmpty = some D)
    (hinit : StringMap.get n.Labels LabelNodeInitialized = "true")
    (hnom : r.cluster.IsNodeNominated n.Name = false)
    (hempty : Emptiness.isEmpty r n = (true, none))
    (hann : StringMap.lookup n.Annotations EmptinessTimestampAnnotationKey = some v)
    (hbad : rfc.Parse v = none) :
    Emptiness.Reconcile r rfc provisioner n
      = some { result := { Requeue := false, RequeueAfter := 0 },
               err := some ("parsing emptiness timestamp, " ++ v), node := n,
               deleteRequests := [], terminated := [] } := by
  obtain ⟨l, hl⟩ := StringMap.eq_some_of_lookup hann
  have hn1 : ({ n with Annotations := lo.Assign n.Annotations } : Node) = n := by
    cases n; simp_all [lo.Assign]
  have hget := StringMap.get_of_lookup hann
  unfold Emptiness.Reconcile
  simp only [hD, hinit, hempty, hnom, hann, hget, hbad, hn1]
  simp

/-- C12, an instance: an emptiness timestamp that is the empty string. -/
theorem emptiness_reports_unparsable_stamp_witness :
    Emptiness.Reconcile ⟨clientListing [], Clock.fixed (T0 + 700 * Second), clusterIdle⟩
        rfc3339UTC (provisionerWith (some 600) none) (nodeA stampedBlank)
      = some { result := { Requeue := false, RequeueAfter := 0 },
               err := some ("parsing emptiness timestamp, " ++ ""), node := nodeA stampedBlank,
               deleteRequests := [], terminated := [] } :=
  emptiness_reports_unparsable_stamp _ rfc3339UTC _ _ 600 "" rfl (by decide) rfl (by decide)
    (by decide) (by decide)

/-- C12 as stated fails for values that are not timestamps of RFC 3339 and that `time.Parse`
reads all the same: a one-digit hour, and a comma before the fraction of a second. On an
initialized, non-nominated, empty node with a TTL of 600 seconds and such a stamp, the pass at
`T0 + 611s` returns no error, requests the deletion and increments the counter. -/
theorem emptiness_deletes_on_leniently_parsed_stamp :
    rfc3339.isValid "2023-01-01T0:00:10Z" = false ∧
    rfc3339.isValid "2023-01-01T00:00:10,5Z" = false ∧
    StringMap.lookup (nodeA stampedShortHour).Annotations EmptinessTimestampAnnotationKey
      = some "2023-01-01T0:00:10Z" ∧
    StringMap.lookup (nodeA stampedComma).Annotations EmptinessTimestampAnnotationKey
      = some "2023-01-01T00:00:10,5Z" ∧
    StringMap.get (nodeA stampedShortHour).Labels LabelNodeInitialized = "true" ∧
    clusterIdle.IsNodeNominated (nodeA stampedShortHour).Name = false ∧
    Emptiness.isEmpty ⟨clientListing [], Clock.fixed (T0 + 611 * Second), clusterIdle⟩
      (nodeA stampedShortHour) = (true, none) ∧
    Emptiness.Reconcile ⟨clientListing [], Clock.fixed (T0 + 611 * Second), clusterIdle⟩
        rfc3339UTC (provisionerWith (some 600) none) (nodeA stampedShortHour)
      = some { result := { RequeueAfter := -1000000000 }, err := none,
               node := nodeA stampedShortHour, deleteRequests := [nodeA stampedShortHour],
               terminated := [EmptinessReason] } ∧
    Emptiness.Reconcile ⟨clientListing [], Clock.fixed (T0 + 611 * Second), clusterIdle⟩
        rfc3339UTC (provisionerWith (some 600) none) (nodeA stampedComma)
      = some { result := { RequeueAfter := -500000000 }, err := none,
               node := nodeA stampedComma, deleteRequests := [nodeA stampedComma],
               terminated := [EmptinessReason] } := by
  decide

/-- C13: a pass of `Emptiness.Reconcile` or `Expiration.Reconcile` whose deadline has passed and
whose delete call fails returns the delete error with the empty result, and increments no
counter; a pass of `Emptiness.Reconcile` (TTL configured, node initialized) whose pod listing
fails returns the listing error with the empty result, requests no deletion, increments no
counter and leaves the node unchanged. -/
theorem failed_calls_surface_as_errors
    (r : Emptiness) (x : Expiration) (rfc : RFC3339) (systemNow : Int)
    (provisioner : Provisioner) (n : Node) :
    (∀ D v T e, provisioner.Spec.TTLSecondsAfterEmpty = some D →
      StringMap.get n.Labels LabelNodeInitialized = "true" →
      r.cluster.IsNodeNominated n.Name = false →
      Emptiness.isEmpty r n = (true, none) →
      StringMap.lookup n.Annotations EmptinessTimestampAnnotationKey = some v →
      rfc.Parse v = some T →
      T + Duration.ofSeconds D < r.clock.Now 0 →
      r.kubeClient.Delete n = some e →
      Emptiness.Reconcile r rfc provisioner n
        = some { result := { Requeue := false, RequeueAfter := 0 },
                 err := some ("deleting node, " ++ e), node := n, deleteRequests := [n],
                 terminated := [] }) ∧
    (∀ D e, provisioner.Spec.TTLSecondsUntilExpired = some D →
      n.CreationTimestamp + Duration.ofSeconds D < x.clock.Now 0 →
      x.kubeClient.Delete n = some e →
      Expiration.Reconcile x systemNow provisioner n
        = some { result := { Requeue := false, RequeueAfter := 0 },
                 err := some ("deleting node, " ++ e), node := n, deleteRequests := [n],
                 terminated := [] }) ∧
    (∀ D e, provisioner.Spec.TTLSecondsAfterEmpty = some D →
      StringMap.get n.Labels LabelNodeInitialized = "true" →
      r.kubeClient.List n.Name = Except.error e →
      Emptiness.Reconcile r rfc provisioner n
        = some { result := { Requeue := false, RequeueAfter := 0 },
                 err := some ("listing pods for node, " ++ e), node := n, deleteRequests := [],
                 terminated := [] }) := by
  refine ⟨?_, ?_, ?_⟩
  · intro D v T e hD hinit hnom hempty hann hT hlt hdel
    rw [Emptiness.Reconcile_countdown r rfc provisioner n D v T hD hinit hnom hempty hann hT,
      if_pos hlt, hdel]
  · intro D e hD hlt hdel
    unfold Expiration.Reconcile
    simp [hD, Time.After, Time.Add, hlt, hdel]
  · intro D e hD hinit hlist
    unfold Emptiness.Reconcile
    simp [hD, hinit, Emptiness.isEmpty, hlist]

/-- C13, three instances: a failing delete one second after the emptiness deadline, a failing
delete one second after the expiry deadline, and a failing pod listing. -/
theorem failed_calls_surface_as_errors_witness :
    Emptiness.Reconcile ⟨clientFailingDelete, Clock.fixed (T0 + 611 * Second), clusterIdle⟩
        rfc3339UTC (provisionerWith (some 600) (some 3600)) (nodeA stampedAt10)
      = some { result := { Requeue := false, RequeueAfter := 0 },
               err := some ("deleting node, " ++ "conflict"), node := nodeA stampedAt10,
               deleteRequests := [nodeA stampedAt10], terminated := [] } ∧
    Expiration.Reconcile ⟨clientFailingDelete, Clock.fixed (T0 + 3601 * Second)⟩
        (T0 + 3601 * Second) (provisionerWith (some 600) (some 3600)) (nodeA stampedAt10)
      = some { result := { Requeue := false, RequeueAfter := 0 },
               err := some ("deleting node, " ++ "conflict"), node := nodeA stampedAt10,
               deleteRequests := [nodeA stampedAt10], terminated := [] } ∧
    Emptiness.Reconcile ⟨clientFailingList, Clock.fixed (T0 + 611 * Second), clusterIdle⟩
        rfc3339UTC (provisionerWith (some 600) (some 3600)) (nodeA stampedAt10)
      = some { result := { Requeue := false, RequeueAfter := 0 },
               err := some ("listing pods for node, " ++ "timeout"), node := nodeA stampedAt10,
               deleteRequests := [], terminated := [] } :=
  ⟨(failed_calls_surface_as_errors
      ⟨clientFailingDelete, Clock.fixed (T0 + 611 * Second), clusterIdle⟩
      ⟨clientFailingDelete, Clock.fixed (T0 + 3601 * Second)⟩ rfc3339UTC (T0 + 3601 * Second)
      (provisionerWith (some 600) (some 3600)) (nodeA stampedAt10)).1 600 "2023-01-01T00:00:10Z"
      (T0 + 10 * Second) "conflict" rfl (by decide) rfl (by decide) (by decide) (by decide)
      (by decide) rfl,
   (failed_calls_surface_as_errors
      ⟨clientFailingDelete, Clock.fixed (T0 + 611 * Second), clusterIdle⟩
      ⟨clientFailingDelete, Clock.fixed (T0 + 3601 * Second)⟩ rfc3339UTC (T0 + 3601 * Second)
      (provisionerWith (some 600) (some 3600)) (nodeA stampedAt10)).2.1 3600 "conflict" rfl
      (by decide) rfl,
   (failed_calls_surface_as_errors
      ⟨clientFailingList, Clock.fixed (T0 + 611 * Second), clusterIdle⟩
      ⟨clientFailingDelete, Clock.fixed (T0 + 3601 * Second)⟩ rfc3339UTC (T0 + 3601 * Second)
      (provisionerWith (some 600) (some 3600)) (nodeA stampedAt10)).2.2 600 "timeout" rfl
      (by decide) rfl⟩

/-! ## The emptiness test -/

/-- C17: when the pod listing returns a list, `Emptiness.isEmpty` returns no error and returns
true if and only if every listed pod is terminal, owned by a DaemonSet or owned by the node; so it
returns true for the empty list and false as soon as one pod is none of the three. When the
listing fails it returns false and the listing error. -/
theorem isEmpty_iff_all_pods_exempt (r : Emptiness) (n : Node) :
    (∀ pods, r.kubeClient.List n.Name = Except.ok pods →
      (Emptiness.isEmpty r n).2 = none ∧
      ((Emptiness.isEmpty r n).1 = true ↔
        ∀ p ∈ pods, pod.IsTerminal p = true ∨ pod.IsOwnedByDaemonSet p = true ∨
          pod.IsOwnedByNode p = true) ∧
      (pods = [] → (Emptiness.isEmpty r n).1 = true) ∧
      ((∃ p ∈ pods, pod.IsTerminal p = false ∧ pod.IsOwnedByDaemonSet p = false ∧
          pod.IsOwnedByNode p = false) → (Emptiness.isEmpty r n).1 = false)) ∧
    (∀ e, r.kubeClient.List n.Name = Except.error e →
      Emptiness.isEmpty r n = (false, some ("listing pods for node, " ++ e))) := by
  have hloop : ∀ pods : List Pod, Emptiness.isEmpty.loop pods = true ↔
      ∀ p ∈ pods, pod.IsTerminal p = true ∨ pod.IsOwnedByDaemonSet p = true ∨
        pod.IsOwnedByNode p = true := by
    intro pods
    induction pods with
    | nil => simp [Emptiness.isEmpty.loop]
    | cons q rest ih =>
      simp only [Emptiness.isEmpty.loop, List.mem_cons, forall_eq_or_imp, ← ih]
      cases pod.IsTerminal q <;> cases pod.IsOwnedByDaemonSet q <;> cases pod.IsOwnedByNode q <;>
        simp
  constructor
  · intro pods hl
    rw [Emptiness.isEmpty_of_list r n pods hl]
    refine ⟨rfl, hloop pods, ?_, ?_⟩
    · intro h
      subst h
      rfl
    · rintro ⟨p, hp, h1, h2, h3⟩
      exact Emptiness.isEmpty_loop_false pods p hp h1 h2 h3
  · intro e hl
    simp [Emptiness.isEmpty, hl]

/-- C17, instances: no pods, one running pod, and a failing listing. -/
theorem isEmpty_iff_all_pods_exempt_witness :
    (Emptiness.isEmpty ⟨clientListing [], Clock.fixed T0, clusterIdle⟩ (nodeA none)).1 = true ∧
    (Emptiness.isEmpty ⟨clientListing [podRunning], Clock.fixed T0, clusterIdle⟩ (nodeA none)).1
      = false ∧
    Emptiness.isEmpty ⟨clientFailingList, Clock.fixed T0, clusterIdle⟩ (nodeA none)
      = (false, some ("listing pods for node, " ++ "timeout")) :=
  ⟨((isEmpty_iff_all_pods_exempt ⟨clientListing [], Clock.fixed T0, clusterIdle⟩ (nodeA none)).1
      [] rfl).2.2.1 rfl,
   ((isEmpty_iff_all_pods_exempt ⟨clientListing [podRunning], Clock.fixed T0, clusterIdle⟩
      (nodeA none)).1 [podRunning] rfl).2.2.2 ⟨podRunning, by decide, rfl, rfl, rfl⟩,
   (isEmpty_iff_all_pods_exempt ⟨clientFailingList, Clock.fixed T0, clusterIdle⟩
      (nodeA none)).2 "timeout" rfl⟩

/-! ## Drift: the check -/

/-- C18: for a node with a non-empty `ami-id` annotation, `Drift.Reconcile` calls the backend's
drift check exactly once and returns the empty result and no error; when the backend reports
drift the drifted annotation is `"true"` afterwards, and when it reports none the node, so its
annotations, is unchanged. -/
theorem drift_marks_when_backend_reports
    (r : Drift) (provisioner : Provisioner) (n : Node)
    (hami : StringMap.get n.Annotations AmiAnnotationKey ≠ "") :
    ∃ out, Drift.Reconcile r provisioner n = some out ∧
      out.driftChecks = 1 ∧
      out.result = { Requeue := false, RequeueAfter := 0 } ∧ out.err = none ∧
      (r.cloudProvider.IsNodeDrifted n provisioner = true →
        StringMap.get out.node.Annotations DriftedAnnotationKey = "true") ∧
      (r.cloudProvider.IsNodeDrifted n provisioner = false → out.node = n) := by
  unfold Drift.Reconcile
  cases hdr : r.cloudProvider.IsNodeDrifted n provisioner with
  | false => simp [hami]
  | true =>
    cases hA : n.Annotations with
    | none => simp [hA, StringMap.get, StringMap.lookup] at hami
    | some l =>
      rw [hA] at hami
      simp only [hami, StringMap.set]
      simp [StringMap.get, StringMap.lookup, List.lookup]

/-- C18, an instance: an identified node under a backend that reports drift. -/
theorem drift_marks_when_backend_reports_witness :
    ∃ out, Drift.Reconcile ⟨clientListing [], Clock.fixed T0, clusterIdle, cloudDrifted⟩
        (provisionerWith none none) (nodeA identified) = some out ∧
      out.driftChecks = 1 ∧ StringMap.get out.node.Annotations DriftedAnnotationKey = "true" := by
  obtain ⟨out, h, hc, _, _, hmark, _⟩ :=
    drift_marks_when_backend_reports ⟨clientListing [], Clock.fixed T0, clusterIdle, cloudDrifted⟩
      (provisionerWith none none) (nodeA identified) (by decide)
  exact ⟨out, h, hc, hmark rfl⟩

/-! ## Frame and safety -/

/-- C19: for every input, `Emptiness.Reconcile` keeps the labels and every annotation other than
the emptiness timestamp; `Drift.Reconcile` keeps the labels and every annotation other than the
drifted one, the emptiness timestamp in particular; `Expiration.Reconcile` leaves the whole node
as it was. An annotation is kept when its key has the same value, or none, before and after. -/
theorem policies_touch_only_their_annotation
    (e : Emptiness) (x : Expiration) (d : Drift) (rfc : RFC3339) (systemNow : Int)
    (provisioner : Provisioner) (n : Node) :
    (∃ out, Emptiness.Reconcile e rfc provisioner n = some out ∧
      out.node.Labels = n.Labels ∧
      ∀ k, k ≠ EmptinessTimestampAnnotationKey →
        StringMap.lookup out.node.Annotations k = StringMap.lookup n.Annotations k) ∧
    (∃ out, Drift.Reconcile d provisioner n = some out ∧
      out.node.Labels = n.Labels ∧
      (∀ k, k ≠ DriftedAnnotationKey →
        StringMap.lookup out.node.Annotations k = StringMap.lookup n.Annotations k) ∧
      StringMap.lookup out.node.Annotations EmptinessTimestampAnnotationKey
        = StringMap.lookup n.Annotations EmptinessTimestampAnnotationKey) ∧
    (∃ out, Expiration.Reconcile x systemNow provisioner n = some out ∧ out.node = n) := by
  obtain ⟨o1, h1, _, _, _, hl1, hk1, _⟩ := Emptiness.Reconcile_emptinessFrame e rfc provisioner n
  obtain ⟨o2, h2, _, _, _, hl2, hk2, _⟩ := Drift.Reconcile_driftFrame d provisioner n
  obtain ⟨o3, h3, hn3, _⟩ := Expiration.Reconcile_expirationFrame x systemNow provisioner n
  exact ⟨⟨o1, h1, hl1, hk1⟩, ⟨o2, h2, hl2, hk2, hk2 _ (by decide)⟩, ⟨o3, h3, hn3⟩⟩

/-- C20: for every node, one without annotation map or without label map included, neither
`Emptiness.Reconcile` nor `Drift.Reconcile` panics on an assignment into a nil map. On a node
without annotation map Drift returns before its write, and Emptiness, when it stamps the node,
writes into the fresh map that `lo.Assign` made. -/
theorem policies_never_write_into_nil_map
    (e : Emptiness) (d : Drift) (rfc : RFC3339) (provisioner : Provisioner) (n : Node) :
    (Emptiness.Reconcile e rfc provisioner n).isSome = true ∧
    (Drift.Reconcile d provisioner n).isSome = true ∧
    (n.Annotations = none →
      ∃ out, Drift.Reconcile d provisioner n = some out ∧ out.node = n ∧ out.driftChecks = 0) ∧
    (n.Annotations = none →
      ∀ D, provisioner.Spec.TTLSecondsAfterEmpty = some D →
        StringMap.get n.Labels LabelNodeInitialized = "true" →
        e.cluster.IsNodeNominated n.Name = false →
        Emptiness.isEmpty e n = (true, none) →
        ∃ out, Emptiness.Reconcile e rfc provisioner n = some out ∧
          out.node.Annotations
            = some [(EmptinessTimestampAnnotationKey, rfc.Format (e.clock.Now 0))]) := by
  obtain ⟨o1, h1, _⟩ := Emptiness.Reconcile_emptinessFrame e rfc provisioner n
  obtain ⟨o2, h2, _⟩ := Drift.Reconcile_driftFrame d provisioner n
  refine ⟨by rw [h1]; rfl, by rw [h2]; rfl, ?_, ?_⟩
  · intro hnil
    unfold Drift.Reconcile
    simp [hnil, StringMap.get, StringMap.lookup]
  · intro hnil D hD hinit hnom hempty
    rw [Emptiness.Reconcile_arm e rfc provisioner n D hD hinit hnom hempty
      (by rw [hnil]; rfl)]
    exact ⟨_, rfl, by simp [hnil]⟩

/-! ## The reporter -/

/-- C16: on a reporter built by `NewReporter`, two consecutive calls for the same node, the
second within one minute of the first, publish exactly one event, and a third call after the
fifteen minutes have elapsed publishes a second one. In general a call publishes the event if
the change monitor's `HasChanged` for the node's UID and the topic `consolidation` returns
true, publishes nothing otherwise, and so publishes at most one event. -/
theorem reporter_publishes_once_per_window
    (recorder : Recorder) (defaultInterval : Int) (node : Node) (reason : String) (t1 t2 t3 : Int)
    (hwithin : t2 ≤ t1 + 1 * Minute) (hafter : t1 + 15 * Minute < t3) :
    (Reporter.RecordUnconsolidatableReason
        (Reporter.RecordUnconsolidatableReason (NewReporter recorder defaultInterval) t1 node reason)
        t2 node reason).recorder.published
      = recorder.published ++ [deprovisioningevents.UnconsolidatableReason node reason] ∧
    (Reporter.RecordUnconsolidatableReason
        (Reporter.RecordUnconsolidatableReason
          (Reporter.RecordUnconsolidatableReason (NewReporter recorder defaultInterval) t1 node
            reason) t2 node reason) t3 node reason).recorder.published
      = recorder.published ++ [deprovisioningevents.UnconsolidatableReason node reason,
          deprovisioningevents.UnconsolidatableReason node reason] ∧
    (∀ (r : Reporter) (now : Int) (m : Node) (text : String),
      (Reporter.RecordUnconsolidatableReason r now m text).recorder.published
        = r.recorder.published ++
            (if (ChangeMonitor.HasChanged r.cm now m.UID "consolidation").1 = true
              then [deprovisioningevents.UnconsolidatableReason m text] else [])) := by
  have hgen : ∀ (r : Reporter) (now : Int) (m : Node) (text : String),
      (Reporter.RecordUnconsolidatableReason r now m text).recorder.published
        = r.recorder.published ++
            (if (ChangeMonitor.HasChanged r.cm now m.UID "consolidation").1 = true
              then [deprovisioningevents.UnconsolidatableReason m text] else []) := by
    intro r now m text
    unfold Reporter.RecordUnconsolidatableReason
    rcases hc : ChangeMonitor.HasChanged r.cm now m.UID "consolidation" with ⟨b, cm⟩
    cases b <;> simp [Recorder.Publish]
  have h1 : Reporter.RecordUnconsolidatableReason (NewReporter recorder defaultInterval) t1 node
      reason = ⟨⟨15 * Minute, [((node.UID, "consolidation"), t1)]⟩,
        ⟨recorder.published ++ [deprovisioningevents.UnconsolidatableReason node reason]⟩⟩ := by
    simp [Reporter.RecordUnconsolidatableReason, NewReporter, pretty.NewChangeMonitor,
      ChangeMonitor.Reconfigure, ChangeMonitor.HasChanged, List.lookup, Recorder.Publish]
  have h2 : Reporter.RecordUnconsolidatableReason
      (Reporter.RecordUnconsolidatableReason (NewReporter recorder defaultInterval) t1 node reason)
      t2 node reason = ⟨⟨15 * Minute, [((node.UID, "consolidation"), t1)]⟩,
        ⟨recorder.published ++ [deprovisioningevents.UnconsolidatableReason node reason]⟩⟩ := by
    rw [h1]
    have hlt : ¬ 15 * Minute ≤ t2 - t1 := by
      simp only [Minute, Second] at hwithin ⊢
      omega
    simp [Reporter.RecordUnconsolidatableReason, ChangeMonitor.HasChanged, List.lookup, hlt]
  refine ⟨by rw [h2], ?_, hgen⟩
  rw [h2]
  have hge : 15 * Minute ≤ t3 - t1 := by
    simp only [Minute, Second] at hafter ⊢
    omega
  simp [Reporter.RecordUnconsolidatableReason, ChangeMonitor.HasChanged, List.lookup, hge,
    Recorder.Publish]

/-- C16, an instance: calls at `T0`, thirty seconds later and sixteen minutes later on a fresh
reporter. -/
theorem reporter_publishes_once_per_window_witness :
    (Reporter.RecordUnconsolidatableReason
        (Reporter.RecordUnconsolidatableReason (NewReporter ⟨[]⟩ 0) T0 (nodeA none) "reason1")
        (T0 + 30 * Second) (nodeA none) "reason1").recorder.published
      = [deprovisioningevents.UnconsolidatableReason (nodeA none) "reason1"] ∧
    (Reporter.RecordUnconsolidatableReason
        (Reporter.RecordUnconsolidatableReason
          (Reporter.RecordUnconsolidatableReason (NewReporter ⟨[]⟩ 0) T0 (nodeA none) "reason1")
          (T0 + 30 * Second) (nodeA none) "reason1")
        (T0 + 16 * Minute) (nodeA none) "reason1").recorder.published
      = [deprovisioningevents.UnconsolidatableReason (nodeA none) "reason1",
         deprovisioningevents.UnconsolidatableReason (nodeA none) "reason1"] := by
  obtain ⟨h2, h3, _⟩ :=
    reporter_publishes_once_per_window ⟨[]⟩ 0 (nodeA none) "reason1" T0 (T0 + 30 * Second)
      (T0 + 16 * Minute) (by decide) (by decide)
  exact ⟨h2, h3⟩

/-! ## The pass -/

/-! ## Independence of the policies -/

theorem StringMap.isSome_delete (m : StringMap) (k : String) :
    (StringMap.delete m k).isSome = m.isSome := by
  cases m <;> rfl

theorem StringMap.isSome_Assign (m : StringMap) : (lo.Assign m).isSome = true := rfl

theorem StringMap.equiv_refl_map (a : StringMap) : StringMap.Equiv a a := ⟨rfl, fun _ => rfl⟩

theorem Node.equiv_refl (n : Node) : Node.Equiv n n :=
  ⟨rfl, rfl, rfl, rfl, StringMap.equiv_refl_map _⟩

theorem Node.equiv_symm {m n : Node} (h : Node.Equiv m n) : Node.Equiv n m :=
  ⟨h.1.symm, h.2.1.symm, h.2.2.1.symm, h.2.2.2.1.symm, h.2.2.2.2.1.symm,
    fun k => (h.2.2.2.2.2 k).symm⟩

theorem Node.equiv_trans {m n o : Node} (h : Node.Equiv m n) (g : Node.Equiv n o) :
    Node.Equiv m o :=
  ⟨h.1.trans g.1, h.2.1.trans g.2.1, h.2.2.1.trans g.2.2.1, h.2.2.2.1.trans g.2.2.2.1,
    h.2.2.2.2.1.trans g.2.2.2.2.1, fun k => (h.2.2.2.2.2 k).trans (g.2.2.2.2.2 k)⟩

/-- The decisions of `Emptiness.Reconcile` depend on the node only through its name, its labels
and its emptiness timestamp, when every delete call succeeds. -/
theorem Emptiness.Reconcile_emptinessCongr (e : Emptiness) (rfc : RFC3339) (provisioner : Provisioner)
    (m m' : Node) (hdel : ∀ a, e.kubeClient.Delete a = none)
    (hname : m.Name = m'.Name) (hlabels : m.Labels = m'.Labels)
    (hets : StringMap.lookup m.Annotations EmptinessTimestampAnnotationKey
      = StringMap.lookup m'.Annotations EmptinessTimestampAnnotationKey) :
    ∃ out out', Emptiness.Reconcile e rfc provisioner m = some out ∧
      Emptiness.Reconcile e rfc provisioner m' = some out' ∧
      (out.deleteRequests = [] ↔ out'.deleteRequests = []) ∧
      out.terminated = out'.terminated ∧
      StringMap.lookup out.node.Annotations EmptinessTimestampAnnotationKey
        = StringMap.lookup out'.node.Annotations EmptinessTimestampAnnotationKey ∧
      (m.Annotations.isSome = m'.Annotations.isSome →
        out.node.Annotations.isSome = out'.node.Annotations.isSome) := by
  have hget : StringMap.get m'.Annotations EmptinessTimestampAnnotationKey
      = StringMap.get m.Annotations EmptinessTimestampAnnotationKey :=
    (StringMap.get_congr hets).symm
  have hemp : Emptiness.isEmpty e m' = Emptiness.isEmpty e m := by
    simp only [Emptiness.isEmpty, hname]
  unfold Emptiness.Reconcile
  simp only [← hname, ← hlabels, ← hets, hget, hemp, hdel]
  cases hD : provisioner.Spec.TTLSecondsAfterEmpty with
  | none => simpa using hets
  | some D =>
    by_cases hinit : StringMap.get m.Labels LabelNodeInitialized = "true"
    swap
    · simpa [hinit] using hets
    cases hl : Emptiness.isEmpty e m with
    | mk empty err =>
      cases err with
      | some er => simpa [hinit] using hets
      | none =>
        cases hnom : e.cluster.IsNodeNominated m.Name with
        | true => simpa [hinit] using hets
        | false =>
          cases empty with
          | false =>
            cases hann : StringMap.lookup m.Annotations EmptinessTimestampAnnotationKey with
            | none =>
              rw [hann] at hets
              simp [hinit, ← hets, hann]
            | some v =>
              simp [hinit, StringMap.lookup_delete_self, StringMap.isSome_delete]
          | true =>
            cases hann : StringMap.lookup m.Annotations EmptinessTimestampAnnotationKey with
            | none =>
              simp [hinit, StringMap.set_Assign, StringMap.lookup, List.lookup]
            | some v =>
              rw [hann] at hets
              cases hT : rfc.Parse (StringMap.get m.Annotations EmptinessTimestampAnnotationKey) with
              | none =>
                simp [hinit, StringMap.lookup_Assign, StringMap.isSome_Assign, hann, ← hets]
              | some T =>
                by_cases hlt : Time.After (e.clock.Now 0) (Time.Add T (Duration.ofSeconds D)) = true
                · simp [hinit, hlt, StringMap.lookup_Assign, StringMap.isSome_Assign, hann, ← hets]
                · simp [hinit, hlt, StringMap.lookup_Assign, StringMap.isSome_Assign, hann, ← hets]

/-- The decisions of `Drift.Reconcile` depend on the node only through its `ami-id` and drifted
annotations, when the backend's answer does not depend on the node. -/
theorem Drift.Reconcile_driftCongr (d : Drift) (provisioner : Provisioner) (m m' : Node)
    (hconst : ∀ a b, d.cloudProvider.IsNodeDrifted a provisioner
      = d.cloudProvider.IsNodeDrifted b provisioner)
    (hami : StringMap.lookup m.Annotations AmiAnnotationKey
      = StringMap.lookup m'.Annotations AmiAnnotationKey)
    (hdr : StringMap.lookup m.Annotations DriftedAnnotationKey
      = StringMap.lookup m'.Annotations DriftedAnnotationKey) :
    ∃ out out', Drift.Reconcile d provisioner m = some out ∧
      Drift.Reconcile d provisioner m' = some out' ∧
      StringMap.lookup out.node.Annotations DriftedAnnotationKey
        = StringMap.lookup out'.node.Annotations DriftedAnnotationKey := by
  have hget : StringMap.get m'.Annotations AmiAnnotationKey
      = StringMap.get m.Annotations AmiAnnotationKey := (StringMap.get_congr hami).symm
  unfold Drift.Reconcile
  rw [hget, hconst m' m]
  by_cases h0 : StringMap.get m.Annotations AmiAnnotationKey = ""
  · simpa [h0] using hdr
  · cases hb : d.cloudProvider.IsNodeDrifted m provisioner with
    | false => simpa [h0] using hdr
    | true =>
      cases hA : m.Annotations with
      | none => simp [hA, StringMap.get, StringMap.lookup] at h0
      | some l =>
        cases hA' : m'.Annotations with
        | none =>
          rw [← hget, hA'] at h0
          simp [StringMap.get, StringMap.lookup] at h0
        | some l' =>
          rw [hA] at h0
          simp only [h0, StringMap.set]
          simp [StringMap.lookup, List.lookup]

/-- The decisions of `Expiration.Reconcile` depend on the node only through its creation time,
when every delete call succeeds. -/
theorem Expiration.Reconcile_expirationCongr (x : Expiration) (systemNow : Int) (provisioner : Provisioner)
    (m m' : Node) (hdel : ∀ a, x.kubeClient.Delete a = none)
    (hct : m.CreationTimestamp = m'.CreationTimestamp) :
    ∃ out out', Expiration.Reconcile x systemNow provisioner m = some out ∧
      Expiration.Reconcile x systemNow provisioner m' = some out' ∧
      out.node = m ∧ out'.node = m' ∧
      (out.deleteRequests = [] ↔ out'.deleteRequests = []) ∧
      out.terminated = out'.terminated := by
  unfold Expiration.Reconcile
  simp only [← hct, hdel]
  cases hD : provisioner.Spec.TTLSecondsUntilExpired with
  | none => simp
  | some D =>
    by_cases hlt : Time.After (x.clock.Now 0) (Time.Add m.CreationTimestamp (Duration.ofSeconds D))
        = true
    · simp [hlt]
    · simp [hlt]

/-- Every policy call returns, keeps the name, the UID, the creation time and the labels of the
node and requests at most one deletion; Drift requests none. -/
theorem Controller.reconcileWith_frame (c : Controller) (provisioner : Provisioner) (p : Policy)
    (n : Node) :
    ∃ out, Controller.reconcileWith c provisioner p n = some out ∧
      out.node.Name = n.Name ∧ out.node.UID = n.UID ∧
      out.node.CreationTimestamp = n.CreationTimestamp ∧ out.node.Labels = n.Labels ∧
      out.deleteRequests.length ≤ 1 ∧ (p = Policy.drift → out.deleteRequests = []) := by
  cases p with
  | emptiness =>
    obtain ⟨out, h, a1, a2, a3, a4, _, a6, _⟩ :=
      Emptiness.Reconcile_emptinessFrame c.emptiness c.rfc provisioner n
    exact ⟨out, h, a1, a2, a3, a4, a6, fun h => by cases h⟩
  | expiration =>
    obtain ⟨out, h, hn, a6, _⟩ :=
      Expiration.Reconcile_expirationFrame c.expiration c.systemNow provisioner n
    exact ⟨out, h, by rw [hn], by rw [hn], by rw [hn], by rw [hn], a6, fun h => by cases h⟩
  | drift =>
    obtain ⟨out, h, a1, a2, a3, a4, _, _, a7, _⟩ := Drift.Reconcile_driftFrame c.drift provisioner n
    exact ⟨out, h, a1, a2, a3, a4, by simp [a7], fun _ => a7⟩

/-- Under fixed observations a policy treats two equivalent nodes alike. -/
theorem Controller.reconcileWith_congr (obs : Observations) (rfc : RFC3339)
    (provisioner : Provisioner) (p : Policy) (m m' : Node) (h : Node.Equiv m m') :
    ∃ out out',
      Controller.reconcileWith (Controller.ofObservations obs rfc) provisioner p m = some out ∧
      Controller.reconcileWith (Controller.ofObservations obs rfc) provisioner p m' = some out' ∧
      Node.Equiv out.node out'.node ∧
      (out.deleteRequests = [] ↔ out'.deleteRequests = []) ∧ out.terminated = out'.terminated := by
  obtain ⟨hname, huid, hct, hlabels, hsome, hlook⟩ := h
  cases p with
  | emptiness =>
    obtain ⟨out, out', ho, ho', hdel, hterm, hets, hiss⟩ :=
      Emptiness.Reconcile_emptinessCongr (Controller.ofObservations obs rfc).emptiness rfc provisioner m m'
        (fun _ => rfl) hname hlabels (hlook _)
    obtain ⟨f, hf, f1, f2, f3, f4, f5, _⟩ :=
      Emptiness.Reconcile_emptinessFrame (Controller.ofObservations obs rfc).emptiness rfc provisioner m
    obtain ⟨f', hf', g1, g2, g3, g4, g5, _⟩ :=
      Emptiness.Reconcile_emptinessFrame (Controller.ofObservations obs rfc).emptiness rfc provisioner m'
    rw [ho] at hf
    rw [ho'] at hf'
    cases hf
    cases hf'
    refine ⟨out, out', ho, ho', ⟨?_, ?_, ?_, ?_, hiss hsome, ?_⟩, hdel, hterm⟩
    · rw [f1, g1, hname]
    · rw [f2, g2, huid]
    · rw [f3, g3, hct]
    · rw [f4, g4, hlabels]
    · intro k
      by_cases hk : k = EmptinessTimestampAnnotationKey
      · rw [hk]
        exact hets
      · rw [f5 k hk, g5 k hk]
        exact hlook k
  | expiration =>
    obtain ⟨out, out', ho, ho', hn, hn', hdel, hterm⟩ :=
      Expiration.Reconcile_expirationCongr (Controller.ofObservations obs rfc).expiration obs.now provisioner
        m m' (fun _ => rfl) hct
    refine ⟨out, out', ho, ho', ?_, hdel, hterm⟩
    rw [hn, hn']
    exact ⟨hname, huid, hct, hlabels, hsome, hlook⟩
  | drift =>
    obtain ⟨out, out', ho, ho', hdr⟩ :=
      Drift.Reconcile_driftCongr (Controller.ofObservations obs rfc).drift provisioner m m'
        (fun _ _ => rfl) (hlook _) (hlook _)
    obtain ⟨f, hf, f1, f2, f3, f4, f5, f6, f7, f8, _⟩ :=
      Drift.Reconcile_driftFrame (Controller.ofObservations obs rfc).drift provisioner m
    obtain ⟨f', hf', g1, g2, g3, g4, g5, g6, g7, g8, _⟩ :=
      Drift.Reconcile_driftFrame (Controller.ofObservations obs rfc).drift provisioner m'
    rw [ho] at hf
    rw [ho'] at hf'
    cases hf
    cases hf'
    refine ⟨out, out', ho, ho', ⟨?_, ?_, ?_, ?_, ?_, ?_⟩, ?_, ?_⟩
    · rw [f1, g1, hname]
    · rw [f2, g2, huid]
    · rw [f3, g3, hct]
    · rw [f4, g4, hlabels]
    · rw [f6, g6, hsome]
    · intro k
      by_cases hk : k = DriftedAnnotationKey
      · rw [hk]
        exact hdr
      · rw [f5 k hk, g5 k hk]
        exact hlook k
    · simp [f7, g7]
    · rw [f8, g8]

theorem Controller.commute_symm {c : Controller} {provisioner : Provisioner} {p q : Policy}
    {n : Node} (h : Controller.Commute c provisioner p q n) :
    Controller.Commute c provisioner q p n := by
  obtain ⟨o1, o2, o3, o4, h1, h2, h3, h4, hn, hd1, ht1, hd2, ht2⟩ := h
  exact ⟨o3, o4, o1, o2, h3, h4, h1, h2, Node.equiv_symm hn, hd2.symm, ht2.symm, hd1.symm,
    ht1.symm⟩

/-- Emptiness and Drift commute: neither reads or writes an annotation the other one writes. -/
theorem Controller.commute_emptiness_drift (obs : Observations) (rfc : RFC3339)
    (provisioner : Provisioner) (n : Node) :
    Controller.Commute (Controller.ofObservations obs rfc) provisioner Policy.emptiness
      Policy.drift n := by
  obtain ⟨o1, h1, a1, a2, a3, a4, a5, _⟩ :=
    Emptiness.Reconcile_emptinessFrame (Controller.ofObservations obs rfc).emptiness rfc provisioner n
  obtain ⟨o3, h3, c1, c2, c3, c4, c5, c6, c7, c8, _⟩ :=
    Drift.Reconcile_driftFrame (Controller.ofObservations obs rfc).drift provisioner n
  obtain ⟨o2, h2, b1, b2, b3, b4, b5, b6, b7, b8, _⟩ :=
    Drift.Reconcile_driftFrame (Controller.ofObservations obs rfc).drift provisioner o1.node
  obtain ⟨o4, h4, d1, d2, d3, d4, d5, _⟩ :=
    Emptiness.Reconcile_emptinessFrame (Controller.ofObservations obs rfc).emptiness rfc provisioner o3.node
  -- the emptiness decisions on `n` and on the node that Drift left
  obtain ⟨e1, e4, he1, he4, hdel, hterm, hets, hiss⟩ :=
    Emptiness.Reconcile_emptinessCongr (Controller.ofObservations obs rfc).emptiness rfc provisioner n
      o3.node (fun _ => rfl) c1.symm c4.symm (c5 _ (by decide)).symm
  rw [h1] at he1
  rw [h4] at he4
  cases he1
  cases he4
  -- the drift decisions on `n` and on the node that Emptiness left
  obtain ⟨g3, g2, hg3, hg2, hdr⟩ :=
    Drift.Reconcile_driftCongr (Controller.ofObservations obs rfc).drift provisioner n o1.node
      (fun _ _ => rfl) (a5 _ (by decide)).symm (a5 _ (by decide)).symm
  rw [h3] at hg3
  rw [h2] at hg2
  cases hg3
  cases hg2
  refine ⟨o1, o2, o3, o4, h1, h2, h3, h4, ⟨?_, ?_, ?_, ?_, ?_, ?_⟩, hdel, hterm, ?_, ?_⟩
  · rw [b1, a1, d1, c1]
  · rw [b2, a2, d2, c2]
  · rw [b3, a3, d3, c3]
  · rw [b4, a4, d4, c4]
  · rw [b6]
    exact hiss c6.symm
  · intro k
    by_cases hk : k = EmptinessTimestampAnnotationKey
    · rw [hk, b5 _ (by decide)]
      exact hets
    · by_cases hk2 : k = DriftedAnnotationKey
      · rw [hk2, d5 _ (by decide)]
        exact hdr.symm
      · rw [b5 k hk2, a5 k hk, d5 k hk, c5 k hk2]
  · simp [b7, c7]
  · rw [b8, c8]

/-- Expiration commutes with a policy that keeps the creation time: it leaves the node alone and
decides on the creation time only. -/
theorem Controller.commute_expiration (obs : Observations) (rfc : RFC3339)
    (provisioner : Provisioner) (p : Policy) (n : Node) :
    Controller.Commute (Controller.ofObservations obs rfc) provisioner p Policy.expiration n := by
  obtain ⟨o1, h1, _, _, hct, _⟩ :=
    Controller.reconcileWith_frame (Controller.ofObservations obs rfc) provisioner p n
  obtain ⟨o2, o3, h2, h3, hn2, hn3, hdel, hterm⟩ :=
    Expiration.Reconcile_expirationCongr (Controller.ofObservations obs rfc).expiration obs.now provisioner
      o1.node n (fun _ => rfl) hct
  refine ⟨o1, o2, o3, o1, h1, h2, h3, ?_, ?_, Iff.rfl, rfl, hdel, hterm⟩
  · rw [hn3]
    exact h1
  · rw [hn2]
    exact Node.equiv_refl _

/-- Two different policies commute on every node, under fixed observations. -/
theorem Controller.commute_of_ne (obs : Observations) (rfc : RFC3339) (provisioner : Provisioner)
    (p q : Policy) (hpq : p ≠ q) (n : Node) :
    Controller.Commute (Controller.ofObservations obs rfc) provisioner p q n := by
  cases p <;> cases q
  · exact absurd rfl hpq
  · exact Controller.commute_expiration obs rfc provisioner _ n
  · exact Controller.commute_emptiness_drift obs rfc provisioner n
  · exact Controller.commute_symm (Controller.commute_expiration obs rfc provisioner _ n)
  · exact absurd rfl hpq
  · exact Controller.commute_symm (Controller.commute_expiration obs rfc provisioner _ n)
  · exact Controller.commute_symm (Controller.commute_emptiness_drift obs rfc provisioner n)
  · exact Controller.commute_expiration obs rfc provisioner _ n
  · exact absurd rfl hpq

/-- Under fixed observations a pass treats two equivalent nodes alike. -/
theorem Controller.runPass_congr (obs : Observations) (rfc : RFC3339) (provisioner : Provisioner)
    (order : List Policy) :
    ∀ m m', Node.Equiv m m' →
      ∃ r r', Controller.runPass (Controller.ofObservations obs rfc) provisioner order m = some r ∧
        Controller.runPass (Controller.ofObservations obs rfc) provisioner order m' = some r' ∧
        Node.Equiv r.node r'.node ∧ r.deleters = r'.deleters ∧ r.terminated = r'.terminated := by
  induction order with
  | nil =>
    intro m m' h
    exact ⟨_, _, rfl, rfl, h, rfl, rfl⟩
  | cons p rest ih =>
    intro m m' h
    obtain ⟨out, out', ho, ho', hn, hdel, hterm⟩ :=
      Controller.reconcileWith_congr obs rfc provisioner p m m' h
    obtain ⟨r, r', hr, hr', hrn, hrd, hrt⟩ := ih out.node out'.node hn
    refine ⟨⟨r.node, (if out.deleteRequests = [] then [] else [p]) ++ r.deleters,
        out.terminated ++ r.terminated⟩,
      ⟨r'.node, (if out'.deleteRequests = [] then [] else [p]) ++ r'.deleters,
        out'.terminated ++ r'.terminated⟩,
      by simp only [Controller.runPass, ho, hr], by simp only [Controller.runPass, ho', hr'],
      hrn, ?_, ?_⟩
    · by_cases hd : out.deleteRequests = []
      · simp [hd, hdel.mp hd, hrd]
      · have hd' : ¬ out'.deleteRequests = [] := fun h' => hd (hdel.mpr h')
        simp [hd, hd', hrd]
    · simp [hterm, hrt]

theorem List.perm_append_swap3 {α : Type} (a b c : List α) :
    (a ++ (b ++ c)).Perm (b ++ (a ++ c)) := by
  rw [← List.append_assoc, ← List.append_assoc]
  exact List.Perm.append_right c List.perm_append_comm

/-- C14 (as amended): every policy call requests deletion of the node at most once, and
`Drift.Reconcile` requests none. In a pass the policies that request a deletion are among the
invoked policies other than Drift, each at most once: Emptiness and Expiration decide on their
own deadline and can both request the deletion in the same pass. -/
theorem each_policy_deletes_at_most_once (c : Controller) (provisioner : Provisioner)
    (order : List Policy) :
    ∀ n : Node,
      (∀ p, ∃ out, Controller.reconcileWith c provisioner p n = some out ∧
        out.deleteRequests.length ≤ 1 ∧ (p = Policy.drift → out.deleteRequests = [])) ∧
      (∃ r, Controller.runPass c provisioner order n = some r ∧
        r.deleters.Sublist (order.filter (fun p => decide (p ≠ Policy.drift)))) := by
  induction order with
  | nil =>
    intro n
    refine ⟨fun p => ?_, ⟨_, rfl, List.Sublist.refl _⟩⟩
    obtain ⟨out, h, _, _, _, _, h5, h6⟩ := Controller.reconcileWith_frame c provisioner p n
    exact ⟨out, h, h5, h6⟩
  | cons q rest ih =>
    intro n
    refine ⟨fun p => ?_, ?_⟩
    · obtain ⟨out, h, _, _, _, _, h5, h6⟩ := Controller.reconcileWith_frame c provisioner p n
      exact ⟨out, h, h5, h6⟩
    · obtain ⟨out, h, _, _, _, _, _, h6⟩ := Controller.reconcileWith_frame c provisioner q n
      obtain ⟨r, hr, hsub⟩ := (ih out.node).2
      refine ⟨⟨r.node, (if out.deleteRequests = [] then [] else [q]) ++ r.deleters,
        out.terminated ++ r.terminated⟩, by simp only [Controller.runPass, h, hr], ?_⟩
      by_cases hq : q = Policy.drift
      · simp only [h6 hq, if_true, List.nil_append, hq, List.filter, ne_eq, not_true_eq_false,
          decide_False]
        exact hsub
      · have hf : List.filter (fun p => decide (p ≠ Policy.drift)) (q :: rest)
            = q :: List.filter (fun p => decide (p ≠ Policy.drift)) rest := by
          simp [List.filter, hq]
        rw [hf]
        by_cases hd : out.deleteRequests = []
        · simp only [hd, if_true, List.nil_append]
          exact List.Sublist.cons q hsub
        · simp only [hd, if_false, List.singleton_append]
          exact List.Sublist.cons₂ q hsub

/-- C14 as stated fails: a stamped, empty node past its emptiness TTL of 600 seconds and past its
expiry TTL of 3600 seconds; in the pass at `T0 + 3700s` both Emptiness and Expiration request
the deletion of the node. -/
theorem pass_with_two_deletion_requests :
    Emptiness.Reconcile ⟨clientListing [], Clock.fixed (T0 + 3700 * Second), clusterIdle⟩
        rfc3339UTC (provisionerWith (some 600) (some 3600)) (nodeA identifiedStamped)
      = some { result := { RequeueAfter := -3090000000000 }, err := none,
               node := nodeA identifiedStamped, deleteRequests := [nodeA identifiedStamped],
               terminated := [EmptinessReason] } ∧
    Expiration.Reconcile ⟨clientListing [], Clock.fixed (T0 + 3700 * Second)⟩
        (T0 + 3700 * Second) (provisionerWith (some 600) (some 3600)) (nodeA identifiedStamped)
      = some { result := { RequeueAfter := -100000000000 }, err := none,
               node := nodeA identifiedStamped, deleteRequests := [nodeA identifiedStamped],
               terminated := [ExpirationReason] } ∧
    Option.map PassResult.deleters
        (Controller.runPass (Controller.ofObservations observedLate rfc3339UTC)
          (provisionerWith (some 600) (some 3600))
          [Policy.emptiness, Policy.expiration, Policy.drift] (nodeA identifiedStamped))
      = some [Policy.emptiness, Policy.expiration] := by
  decide

/-- C15: under fixed observations (clock time, pod list, nomination answer, drift answer, every
call succeeding) two passes that invoke the same policies in different orders, so in particular
the three policies in any two of their six orders, end in the same state: the final nodes are
equal with annotation maps that hold the same entries, the same policies requested a deletion and
the termination counter received the same increments. -/
theorem pass_result_independent_of_order (obs : Observations) (rfc : RFC3339)
    (provisioner : Provisioner) (order1 order2 : List Policy) (h : order1.Perm order2) :
    ∀ n : Node, ∃ r1 r2,
      Controller.runPass (Controller.ofObservations obs rfc) provisioner order1 n = some r1 ∧
      Controller.runPass (Controller.ofObservations obs rfc) provisioner order2 n = some r2 ∧
      PassResult.Equiv r1 r2 := by
  induction h with
  | nil =>
    intro n
    exact ⟨_, _, rfl, rfl, Node.equiv_refl n, List.Perm.refl _, List.Perm.refl _⟩
  | cons x _ ih =>
    intro n
    obtain ⟨out, ho, _⟩ :=
      Controller.reconcileWith_frame (Controller.ofObservations obs rfc) provisioner x n
    obtain ⟨r1, r2, h1, h2, hn, hd, ht⟩ := ih out.node
    exact ⟨⟨r1.node, (if out.deleteRequests = [] then [] else [x]) ++ r1.deleters,
        out.terminated ++ r1.terminated⟩,
      ⟨r2.node, (if out.deleteRequests = [] then [] else [x]) ++ r2.deleters,
        out.terminated ++ r2.terminated⟩,
      by simp only [Controller.runPass, ho, h1], by simp only [Controller.runPass, ho, h2],
      hn, List.Perm.append_left _ hd, List.Perm.append_left _ ht⟩
  | swap x y l =>
    intro n
    by_cases hxy : y = x
    · subst hxy
      obtain ⟨r, r', hr, hr', hn, hd, ht⟩ :=
        Controller.runPass_congr obs rfc provisioner (y :: y :: l) n n (Node.equiv_refl n)
      exact ⟨r, r', hr, hr', hn, List.Perm.of_eq hd, List.Perm.of_eq ht⟩
    · obtain ⟨o1, o2, o3, o4, h1, h2, h3, h4, hn, hd1, ht1, hd2, ht2⟩ :=
        Controller.commute_of_ne obs rfc provisioner y x hxy n
      obtain ⟨r, r', hr, hr', hrn, hrd, hrt⟩ :=
        Controller.runPass_congr obs rfc provisioner l o2.node o4.node hn
      refine ⟨⟨r.node, (if o1.deleteRequests = [] then [] else [y]) ++
            ((if o2.deleteRequests = [] then [] else [x]) ++ r.deleters),
          o1.terminated ++ (o2.terminated ++ r.terminated)⟩,
        ⟨r'.node, (if o3.deleteRequests = [] then [] else [x]) ++
            ((if o4.deleteRequests = [] then [] else [y]) ++ r'.deleters),
          o3.terminated ++ (o4.terminated ++ r'.terminated)⟩,
        by simp only [Controller.runPass, h1, h2, hr],
        by simp only [Controller.runPass, h3, h4, hr'], hrn, ?_, ?_⟩
      · have e1 : (if o4.deleteRequests = [] then ([] : List Policy) else [y])
            = (if o1.deleteRequests = [] then [] else [y]) := by
          by_cases hd : o1.deleteRequests = []
          · simp [hd, hd1.mp hd]
          · rw [if_neg hd, if_neg (fun h' => hd (hd1.mpr h'))]
        have e2 : (if o3.deleteRequests = [] then ([] : List Policy) else [x])
            = (if o2.deleteRequests = [] then [] else [x]) := by
          by_cases hd : o2.deleteRequests = []
          · simp [hd, hd2.mp hd]
          · rw [if_neg hd, if_neg (fun h' => hd (hd2.mpr h'))]
        show List.Perm _ _
        simp only [e1, e2, ← hrd]
        exact List.perm_append_swap3 _ _ _
      · show List.Perm _ _
        simp only [← ht1, ← ht2, ← hrt]
        exact List.perm_append_swap3 _ _ _
  | trans _ _ ih1 ih2 =>
    intro n
    obtain ⟨r1, r2, h1, h2, hn, hd, ht⟩ := ih1 n
    obtain ⟨r2', r3, h2', h3, hn', hd', ht'⟩ := ih2 n
    rw [h2] at h2'
    cases h2'
    exact ⟨r1, r3, h1, h3, Node.equiv_trans hn hn', hd.trans hd', ht.trans ht'⟩

/-- C15, an instance: the orders Drift, Expiration, Emptiness and Emptiness, Expiration, Drift on
a stamped, identified node past both deadlines. -/
theorem pass_result_independent_of_order_witness :
    ∃ r1 r2,
      Controller.runPass (Controller.ofObservations observedLate rfc3339UTC)
        (provisionerWith (some 600) (some 3600))
        [Policy.drift, Policy.expiration, Policy.emptiness] (nodeA identifiedStamped) = some r1 ∧
      Controller.runPass (Controller.ofObservations observedLate rfc3339UTC)
        (provisionerWith (some 600) (some 3600))
        [Policy.emptiness, Policy.expiration, Policy.drift] (nodeA identifiedStamped) = some r2 ∧
      PassResult.Equiv r1 r2 :=
  pass_result_independent_of_order observedLate rfc3339UTC (provisionerWith (some 600) (some 3600))
    [Policy.drift, Policy.expiration, Policy.emptiness]
    [Policy.emptiness, Policy.expiration, Policy.drift] (by decide) (nodeA identifiedStamped)

end Karpenter
